import Mathlib

/-!
Verification of the recurring-income projection and aggregation engine of the
cashflowr repository against its specification.

Source files embedded below:
  * `src/features/dashboard/utils/cashflowSeries.ts` (calendar primitives and
    the monthly series builder),
  * `src/features/incomes/components/IncomeManageModal.tsx` (the YTD /
    run-rate aggregation with its `ytdLines` breakdown; the file contains two
    copies of this `useMemo`, identical except that the first omits the
    breakdown, so one embedding covers both),
  * the dashboard page (the `calcMonthlyEstimatedIncomeCentsShared` and
    one-off "this month" helpers).

Date model: the code uses JavaScript `Date` values only through the local
calendar constructor `new Date(y, m, d, hh, mm, ss, ms)`, the accessors
`getFullYear` / `getMonth` / `getDate`, and comparisons / equality of
`getTime()`.  A `Date` is therefore represented by its month index
(`year * 12 + monthIndex`), its day of month and its millisecond of day;
`key` linearises this triple into an integer that is order-isomorphic to the
epoch-millisecond timestamp on normalised dates, so `getTime()`-based
comparison and equality are `key`-based comparison and equality.
-/

namespace Cashflowr

/-- JavaScript `Date` value: `mi` is `getFullYear () * 12 + getMonth ()`,
`d` is `getDate ()` (1-based day of month), `tod` is the millisecond of the
day. -/
structure JSDate where
  mi : Int
  d : Int
  tod : Int
deriving DecidableEq, Repr

/-- Gregorian leap-year rule, as implemented by the JS `Date` runtime. -/
def isLeap (y : Int) : Bool :=
  (y % 4 == 0 && y % 100 != 0) || y % 400 == 0

/-- Number of days of the month with month index `mi` (JS `Date` runtime
calendar). -/
def dim (mi : Int) : Int :=
  let m := mi % 12
  if m = 1 then (if isLeap (mi / 12) then 29 else 28)
  else if m = 3 ∨ m = 5 ∨ m = 8 ∨ m = 10 then 30 else 31

/-- A `JSDate` triple is normalised: the day lies inside its month and the
time of day inside the day.  Every `Date` the runtime hands out satisfies
this. -/
def ValidDate (t : JSDate) : Prop :=
  1 ≤ t.d ∧ t.d ≤ dim t.mi ∧ 0 ≤ t.tod ∧ t.tod < 86400000

instance (t : JSDate) : Decidable (ValidDate t) := by
  unfold ValidDate; infer_instance

/-- Linearisation of a normalised date, order-isomorphic to the epoch
millisecond timestamp (`1 ≤ d ≤ 31 < 32` and `tod < 86400000`, and
`2764800000 = 32 * 86400000`). -/
def key (t : JSDate) : Int :=
  t.mi * 2764800000 + t.d * 86400000 + t.tod

instance : LT JSDate := ⟨fun a b => key a < key b⟩

instance : LE JSDate := ⟨fun a b => key a ≤ key b⟩

instance (a b : JSDate) : Decidable (a < b) :=
  inferInstanceAs (Decidable (key a < key b))

instance (a b : JSDate) : Decidable (a ≤ b) :=
  inferInstanceAs (Decidable (key a ≤ key b))

/-- Day-of-month normalisation performed by the `new Date(y, m, d, ...)`
constructor: borrow from / carry into adjacent months until the day is in
range.  The fuel is always sufficient for the first argument chosen in
`mkDate` (each step moves the day by at least 28 toward its range). -/
def normDay : Nat → Int → Int → Int → JSDate
  | 0, mi, _, tod => ⟨mi, 1, tod⟩
  | fuel + 1, mi, d, tod =>
    if d < 1 then normDay fuel (mi - 1) (d + dim (mi - 1)) tod
    else if dim mi < d then normDay fuel (mi + 1) (d - dim mi) tod
    else ⟨mi, d, tod⟩

/-- JS `new Date(y, m, d, hh, mins, ss, ms)` (local-time constructor with
field normalisation). -/
def mkDate (y m d hh mins ss ms : Int) : JSDate :=
  let tod := hh * 3600000 + mins * 60000 + ss * 1000 + ms
  let d' := d + tod / 86400000
  normDay (d'.natAbs + 2) (y * 12 + m) d' (tod % 86400000)

/-- JS `d.getFullYear()`. -/
def getFullYear (t : JSDate) : Int := t.mi / 12

/-- JS `d.getMonth()` (0-based month). -/
def getMonth (t : JSDate) : Int := t.mi % 12

/-- JS `d.getDate()` (1-based day of month). -/
def getDate (t : JSDate) : Int := t.d

/-- Income frequency enumeration (`incomes.service.ts`). -/
inductive Frequency
  | once
  | monthly
  | quarterly
  | yearly
deriving DecidableEq, Repr

/-- Income visibility scope (`incomes.service.ts`). -/
inductive Scope
  | shared
  | personal
deriving DecidableEq, Repr

/-- A `Dateish` input value (`Date | string | number | TimestampLike | null |
undefined`).  String / number payloads are carried together with the result
of the environment's `new Date(...)` parse (`none` when the parse yields
`NaN`); `null` also covers `undefined` and the falsy payloads `0` and
`""`. -/
inductive Dateish
  | null
  | date (t : JSDate)
  | ts (t : JSDate)
  | parsed (t : JSDate)
  | unparseable
deriving DecidableEq, Repr

/-- The `toDateSafe` helper of `cashflowSeries.ts` / the dashboard page. -/
def toDateSafe : Dateish → Option JSDate
  | .null => none
  | .date t => some t
  | .ts t => some t
  | .parsed t => some t
  | .unparseable => none

/-- The `daysInMonth` helper: `new Date(year, monthIndex + 1, 0).getDate()`. -/
def daysInMonth (year monthIndex : Int) : Int :=
  getDate (mkDate year (monthIndex + 1) 0 0 0 0 0)

/-- The `endOfDay` helper:
`new Date(d.getFullYear(), d.getMonth(), d.getDate(), 23, 59, 59, 999)`. -/
def endOfDay (t : JSDate) : JSDate :=
  mkDate (getFullYear t) (getMonth t) (getDate t) 23 59 59 999

/-- The `startOfMonth` helper of the dashboard page. -/
def startOfMonth (t : JSDate) : JSDate :=
  mkDate (getFullYear t) (getMonth t) 1 0 0 0 0

/-- The exported `endOfMonth` helper of `cashflowSeries.ts`:
`new Date(d.getFullYear(), d.getMonth() + 1, 0, 23, 59, 59, 999)`. -/
def endOfMonth (t : JSDate) : JSDate :=
  mkDate (getFullYear t) (getMonth t + 1) 0 23 59 59 999

/-- The `addMonthsClamped` primitive of `cashflowSeries.ts` /
`IncomeManageModal.tsx`. -/
def addMonthsClamped (t : JSDate) (monthsToAdd : Int) : JSDate :=
  let y0 := getFullYear t
  let m0 := getMonth t
  let target := mkDate y0 (m0 + monthsToAdd) 1 0 0 0 0
  let ty := getFullYear target
  let tm := getMonth target
  let day := min (getDate t) (daysInMonth ty tm)
  mkDate ty tm day 0 0 0 0

/-- The `nextOccurrence` primitive. -/
def nextOccurrence (t : JSDate) (freq : Frequency) : JSDate :=
  match freq with
  | .monthly => addMonthsClamped t 1
  | .quarterly => addMonthsClamped t 3
  | .yearly => addMonthsClamped t 12
  | .once => t

/-- The `payDateForOccurrence` primitive of `cashflowSeries.ts`:
`new Date(d.getFullYear(), d.getMonth() + 1, 0, 23, 59, 59, 999)` for
`monthly` / `quarterly` (the last day of the occurrence's own calendar
month), the occurrence date itself otherwise. -/
def payDateForOccurrence (t : JSDate) (freq : Frequency) : JSDate :=
  match freq with
  | .monthly | .quarterly =>
    mkDate (getFullYear t) (getMonth t + 1) 0 23 59 59 999
  | _ => t

/-- Month step width used inside `firstOnOrAfter`. -/
def stepMonthsOf (freq : Frequency) : Int :=
  match freq with
  | .monthly => 1
  | .quarterly => 3
  | .yearly => 12
  | .once => 0

/-- The `while (cur < target)` loop of `firstOnOrAfter`.  The source loop is
unbounded; for every valid date and positive step it performs at most one
iteration (one step lands strictly beyond `target`'s month), so the fuel of
`2000` used below never runs out. -/
def foLoop (target : JSDate) (stepMonths : Int) : Nat → JSDate → JSDate
  | 0, cur => cur
  | fuel + 1, cur =>
    if cur < target then
      let next := addMonthsClamped cur stepMonths
      if next = cur then cur else foLoop target stepMonths fuel next
    else cur

/-- The `firstOnOrAfter` primitive of `cashflowSeries.ts` /
`IncomeManageModal.tsx`. -/
def firstOnOrAfter (start target : JSDate) (freq : Frequency) : JSDate :=
  if target ≤ start then start
  else
    let stepMonths := stepMonthsOf freq
    if stepMonths = 0 then start
    else
      let diffMonths :=
        (getFullYear target - getFullYear start) * 12 +
          (getMonth target - getMonth start)
      let k := diffMonths / stepMonths * stepMonths
      foLoop target stepMonths 2000 (addMonthsClamped start k)

/-! The `IncomeRowLite` record shape shared by `cashflowSeries.ts` and the
dashboard page: every field is optional. -/

/-- An income record as the series builder and the dashboard helpers see it
(all fields optional). -/
structure IncomeRowLite where
  amountCents : Option Int
  frequency : Option Frequency
  scope : Option Scope
  createdByUid : Option String
  date : Dateish
  endDate : Dateish
deriving DecidableEq, Repr

/-- The dashboard's `isShared` predicate: `(r.scope ?? "shared") ===
"shared"`. -/
def isShared (r : IncomeRowLite) : Bool :=
  r.scope.getD .shared = .shared

/-- The dashboard's `isMyPersonal` predicate: `(r.scope ?? "shared") ===
"personal" && r.createdByUid === uid`. -/
def isMyPersonal (r : IncomeRowLite) (uid : String) : Bool :=
  r.scope.getD .shared = .personal && r.createdByUid = some uid

/-- JS `Math.round(a / n)` for `0 ≤ a` and `0 < n`, i.e.
`⌊a / n + 1 / 2⌋` (exact halves round up).  The floating-point quotient the
source feeds to `Math.round` never falls on the opposite side of a half from
the exact rational for the divisors 3 and 12 used here, so the integer form
is exact. -/
def roundDiv (a n : Int) : Int :=
  (2 * a + n) / (2 * n)

/-- The `switch (r.frequency)` of `calcMonthlyEstimatedIncomeCentsShared`
(`once` and a missing frequency fall through to the `default` branch). -/
def monthlyEstimatedSharedAdd (total cents : Int) :
    Option Frequency → Int
  | some .monthly => total + cents
  | some .quarterly => total + roundDiv cents 3
  | some .yearly => total + roundDiv cents 12
  | _ => total

/-- Loop body of `calcMonthlyEstimatedIncomeCentsShared` (dashboard page):
one `for`-iteration updating the running total. -/
def monthlyEstimatedSharedStep (now : JSDate) (total : Int)
    (r : IncomeRowLite) : Int :=
  if !isShared r then total
  else
    let cents := r.amountCents.getD 0
    if cents ≤ 0 then total
    else
      match toDateSafe r.endDate with
      | some e =>
        if endOfDay e < startOfMonth now then total
        else monthlyEstimatedSharedAdd total cents r.frequency
      | none => monthlyEstimatedSharedAdd total cents r.frequency

/-- `calcMonthlyEstimatedIncomeCentsShared(rows, now)` of the dashboard
page. -/
def calcMonthlyEstimatedIncomeCentsShared (rows : List IncomeRowLite)
    (now : JSDate) : Int :=
  rows.foldl (monthlyEstimatedSharedStep now) 0

/-- Loop body of `calcOneOffThisMonthCentsShared`. -/
def oneOffSharedStep (now : JSDate) (total : Int) (r : IncomeRowLite) : Int :=
  if r.frequency ≠ some .once then total
  else if !isShared r then total
  else
    match toDateSafe r.date with
    | none => total
    | some d =>
      if getFullYear d = getFullYear now ∧ getMonth d = getMonth now then
        total + r.amountCents.getD 0
      else total

/-- `calcOneOffThisMonthCentsShared(rows, now)` of the dashboard page. -/
def calcOneOffThisMonthCentsShared (rows : List IncomeRowLite)
    (now : JSDate) : Int :=
  rows.foldl (oneOffSharedStep now) 0

/-- Loop body of `calcOneOffThisMonthCentsMyPersonal`. -/
def oneOffMyPersonalStep (uid : String) (now : JSDate) (total : Int)
    (r : IncomeRowLite) : Int :=
  if r.frequency ≠ some .once then total
  else if !isMyPersonal r uid then total
  else
    match toDateSafe r.date with
    | none => total
    | some d =>
      if getFullYear d = getFullYear now ∧ getMonth d = getMonth now then
        total + r.amountCents.getD 0
      else total

/-- `calcOneOffThisMonthCentsMyPersonal(rows, uid, now)` of the dashboard
page. -/
def calcOneOffThisMonthCentsMyPersonal (rows : List IncomeRowLite)
    (uid : String) (now : JSDate) : Int :=
  rows.foldl (oneOffMyPersonalStep uid now) 0

/-! The monthly series builder (`buildMonthlyIncomeSeries`).  The locale
month-name labels are presentation formatting performed by
`toLocaleDateString` and are not modelled; the embedding returns the `cents`
bucket array. -/

/-- `buckets[idx] += cents` guarded by `idx >= 0 && idx < monthsBack`. -/
def bucketAdd (monthsBack : Nat) (buckets : List Int) (idx : Int)
    (cents : Int) : List Int :=
  if 0 ≤ idx ∧ idx < (monthsBack : Int) then
    buckets.set idx.toNat (buckets.getD idx.toNat 0 + cents)
  else buckets

/-- The occurrence-stepping `while (cur <= effectiveEnd && guard < 600)` loop
of `buildMonthlyIncomeSeries`, with the remaining guard budget as fuel. -/
def seriesLoop (freq : Frequency) (cents : Int)
    (effectiveEnd start endW : JSDate) (monthsBack : Nat) :
    Nat → JSDate → List Int → List Int
  | 0, _, buckets => buckets
  | fuel + 1, cur, buckets =>
    if cur ≤ effectiveEnd then
      let payDate := payDateForOccurrence cur freq
      let buckets' :=
        if payDate ≤ effectiveEnd then
          let monthKey := mkDate (getFullYear payDate) (getMonth payDate)
            1 0 0 0 0
          if start ≤ monthKey ∧ monthKey ≤ endW then
            let idx := (getFullYear monthKey - getFullYear start) * 12 +
              (getMonth monthKey - getMonth start)
            bucketAdd monthsBack buckets idx cents
          else buckets
        else buckets
      let nxt := nextOccurrence cur freq
      if nxt = cur then buckets'
      else seriesLoop freq cents effectiveEnd start endW monthsBack fuel
        nxt buckets'
    else buckets

/-- Per-record body of the `for (const r of rows)` loop of
`buildMonthlyIncomeSeries`. -/
def processSeriesRow (now start endW : JSDate) (monthsBack : Nat)
    (buckets : List Int) (r : IncomeRowLite) : List Int :=
  let cents := r.amountCents.getD 0
  if cents ≤ 0 then buckets
  else
    match r.frequency, toDateSafe r.date with
    | none, _ => buckets
    | some _, none => buckets
    | some freq, some startDate =>
      let endDate := (toDateSafe r.endDate).map endOfDay
      if freq = .once then
        if now < startDate then buckets
        else
          let monthKey := mkDate (getFullYear startDate)
            (getMonth startDate) 1 0 0 0 0
          if monthKey < start ∨ endW < monthKey then buckets
          else
            let idx := (getFullYear monthKey - getFullYear start) * 12 +
              (getMonth monthKey - getMonth start)
            bucketAdd monthsBack buckets idx cents
      else
        if now < startDate then buckets
        else
          let effectiveEnd :=
            match endDate with
            | some e => if e < now then e else now
            | none => now
          seriesLoop freq cents effectiveEnd start endW monthsBack 600
            (firstOnOrAfter startDate start freq) buckets

/-- `buildMonthlyIncomeSeries(rows, now, monthsBack)` of
`cashflowSeries.ts`, returning the `cents` bucket array (earliest window
month first). -/
def buildMonthlyIncomeSeries (rows : List IncomeRowLite) (now : JSDate)
    (monthsBack : Nat) : List Int :=
  let endW := mkDate (getFullYear now) (getMonth now) 1 0 0 0 0
  let start := addMonthsClamped endW (-((monthsBack : Int) - 1))
  rows.foldl (processSeriesRow now start endW monthsBack)
    (List.replicate monthsBack 0)

/-! The YTD / run-rate aggregation of `IncomeManageModal.tsx`.  The rows it
receives are the full `IncomeRow` documents of the home (`useIncomes`), with
every field present. -/

/-- An income document row as the manage modal receives it
(`IncomeRow` of `incomes.service.ts`; fields not read by the aggregation are
omitted). -/
structure IncomeRow where
  id : String
  amountCents : Int
  source : String
  frequency : Frequency
  scope : Scope
  date : JSDate
  endDate : Option JSDate
  createdByUid : String
deriving DecidableEq, Repr

/-- One line of the `ytdLines` breakdown. -/
structure YtdLine where
  incomeId : String
  source : String
  frequency : Frequency
  amountCents : Int
  count : Nat
  subtotalCents : Int
deriving DecidableEq, Repr

/-- JS `Map.get`. -/
def mapGet (m : List (String × YtdLine)) (k : String) : Option YtdLine :=
  match m with
  | [] => none
  | (k', v) :: rest => if k' = k then some v else mapGet rest k

/-- JS `Map.set`: update in place when the key exists (keeping its
insertion position), append otherwise. -/
def mapSet (m : List (String × YtdLine)) (k : String) (v : YtdLine) :
    List (String × YtdLine) :=
  match m with
  | [] => [(k, v)]
  | (k', v') :: rest =>
    if k' = k then (k, v) :: rest else (k', v') :: mapSet rest k v

/-- Accumulator state of the aggregation loop (`once`, `recurrentYtd`,
`runRateMonthly`, `breakdown`). -/
structure YtdState where
  once : Int
  recurrentYtd : Int
  runRateMonthly : Int
  breakdown : List (String × YtdLine)
deriving DecidableEq, Repr

/-- The `breakdown.set(r.id, ...)` update of one YTD occurrence: create the
record's line on its first occurrence, bump `count` / `subtotalCents`
afterwards. -/
def bumpLine (r : IncomeRow) (cents : Int)
    (m : List (String × YtdLine)) : List (String × YtdLine) :=
  match mapGet m r.id with
  | none => mapSet m r.id ⟨r.id, r.source, r.frequency, cents, 1, cents⟩
  | some prev =>
    mapSet m r.id
      { prev with
        count := prev.count + 1
        subtotalCents := prev.subtotalCents + cents }

/-- The occurrence-stepping `while (cur <= effectiveEnd && guard < 500)`
loop of the modal's YTD aggregation, with the remaining guard budget as
fuel. -/
def ytdLoop (year : Int) (r : IncomeRow) (cents : Int)
    (effectiveEnd : JSDate) : Nat → JSDate → YtdState → YtdState
  | 0, _, st => st
  | fuel + 1, cur, st =>
    if cur ≤ effectiveEnd then
      let st' :=
        if getFullYear cur = year then
          { st with
            recurrentYtd := st.recurrentYtd + cents
            breakdown := bumpLine r cents st.breakdown }
        else st
      let nxt := nextOccurrence cur r.frequency
      if nxt = cur then st'
      else ytdLoop year r cents effectiveEnd fuel nxt st'
    else st

/-- Per-record body of the `for (const r of rows)` loop of the modal's YTD /
run-rate aggregation (the `r.amountCents ?? 0` of the source is the identity
here because `IncomeRow.amountCents` is a required field). -/
def processYtdRow (now : JSDate) (year : Int) (yearStart : JSDate)
    (st : YtdState) (r : IncomeRow) : YtdState :=
  let cents := r.amountCents
  if cents ≤ 0 then st
  else if r.frequency = .once then
    let d := r.date
    if getFullYear d = year ∧ d ≤ now then { st with once := st.once + cents }
    else st
  else
    let start := r.date
    if now < start then st
    else
      let endLive := r.endDate
      let isActiveNow : Bool :=
        decide (start ≤ now) && endLive.all fun e => decide (now ≤ e)
      let st1 :=
        if isActiveNow then
          match r.frequency with
          | .monthly => { st with runRateMonthly := st.runRateMonthly + cents }
          | .quarterly =>
            { st with runRateMonthly := st.runRateMonthly + roundDiv cents 3 }
          | .yearly =>
            { st with runRateMonthly := st.runRateMonthly + roundDiv cents 12 }
          | .once => st
        else st
      let endV := endLive.getD now
      let effectiveEnd := if endV < now then endV else now
      ytdLoop year r cents effectiveEnd 500
        (firstOnOrAfter start yearStart r.frequency) st1

/-- Result record of the modal's YTD / run-rate `useMemo`. -/
structure YtdOut where
  ytdCents : Int
  runRateMonthlyCents : Int
  onceYtdCents : Int
  recurrentYtdCents : Int
  ytdLines : List YtdLine
deriving DecidableEq, Repr

/-- Descending-by-`subtotalCents` comparison used by
`Array.from(breakdown.values()).sort((a, b) => b.subtotalCents -
a.subtotalCents)`. -/
def subtotalGe (a b : YtdLine) : Bool :=
  b.subtotalCents ≤ a.subtotalCents

/-- The YTD / run-rate aggregation `useMemo` of `IncomeManageModal.tsx`
(second copy, lines 1036-1116; the first copy is identical minus the
`ytdLines` breakdown).  `year` is the calendar year captured outside the
memo and `now` the instant captured inside it. -/
def ytdAgg (rows : List IncomeRow) (now : JSDate) (year : Int) : YtdOut :=
  let yearStart := mkDate year 0 1 0 0 0 0
  let final := rows.foldl (processYtdRow now year yearStart) ⟨0, 0, 0, []⟩
  { ytdCents := final.once + final.recurrentYtd
    runRateMonthlyCents := final.runRateMonthly
    onceYtdCents := final.once
    recurrentYtdCents := final.recurrentYtd
    ytdLines := (final.breakdown.map Prod.snd).mergeSort subtotalGe }

/-! Derived definitions used to state and prove the claims (instrumentation
of the loops above and reference formulations; no source code corresponds to
these, they are characterisations proved equal to the source embeddings
below). -/

/-- The occurrence sequence of a recurring series: `n`-fold application of
`nextOccurrence` to the anchor (glossary: "generated by repeatedly applying
`nextOccurrence`"). -/
def iterOcc (start : JSDate) (freq : Frequency) : Nat → JSDate
  | 0 => start
  | n + 1 => nextOccurrence (iterOcc start freq n) freq

/-- Modelled from the spec: the naive linear scan from the anchor that
`firstOnOrAfter` is claimed to agree with — step occurrence by occurrence
from `start` until the occurrence is on or after `target` (fuel-bounded). -/
def specFirstOnOrAfter (freq : Frequency) (target : JSDate) :
    Nat → JSDate → JSDate
  | 0, cur => cur
  | fuel + 1, cur =>
    if target ≤ cur then cur
    else specFirstOnOrAfter freq target fuel (nextOccurrence cur freq)

/-- Keys of the breakdown map, in insertion order. -/
def mapKeys (m : List (String × YtdLine)) : List String :=
  m.map Prod.fst

/-- `n`-fold `bumpLine`. -/
def bumpN (r : IncomeRow) (cents : Int) :
    Nat → List (String × YtdLine) → List (String × YtdLine)
  | 0, m => m
  | n + 1, m => bumpLine r cents (bumpN r cents n m)

/-- The `ytdLines` entry a record with `n ≥ 1` in-year occurrences ends up
with. -/
def lineAt (r : IncomeRow) (cents : Int) (n : Nat) : YtdLine :=
  ⟨r.id, r.source, r.frequency, cents, n, cents * n⟩

/-- Number of occurrences the YTD loop counts toward the target year
(iterations of `ytdLoop` whose occurrence falls in `year`). -/
def ytdCount (year : Int) (freq : Frequency) (effectiveEnd : JSDate) :
    Nat → JSDate → Nat
  | 0, _ => 0
  | fuel + 1, cur =>
    if cur ≤ effectiveEnd then
      let c : Nat := if getFullYear cur = year then 1 else 0
      let nxt := nextOccurrence cur freq
      if nxt = cur then c
      else c + ytdCount year freq effectiveEnd fuel nxt
    else 0

/-- Number of iterations an occurrence-stepping loop of the given fuel
performs (shared shape of the `guard < 500` YTD loop and the `guard < 600`
series loop). -/
def loopIters (freq : Frequency) (effectiveEnd : JSDate) :
    Nat → JSDate → Nat
  | 0, _ => 0
  | fuel + 1, cur =>
    if cur ≤ effectiveEnd then
      let nxt := nextOccurrence cur freq
      if nxt = cur then 1
      else 1 + loopIters freq effectiveEnd fuel nxt
    else 0

/-- The `effectiveEnd` the modal's YTD loop uses for a recurring record. -/
def ytdEffEnd (now : JSDate) (r : IncomeRow) : JSDate :=
  let endV := r.endDate.getD now
  if endV < now then endV else now

/-- Number of in-year occurrences a record contributes to the modal's YTD
walk (`0` for skipped records: non-positive amount, `once`, future
start). -/
def ytdRecordCount (now : JSDate) (year : Int) (yearStart : JSDate)
    (r : IncomeRow) : Nat :=
  if r.amountCents ≤ 0 then 0
  else if r.frequency = .once then 0
  else if now < r.date then 0
  else
    ytdCount year r.frequency (ytdEffEnd now r) 500
      (firstOnOrAfter r.date yearStart r.frequency)

/-- Contribution of a record to the modal's `onceYtdCents`. -/
def ytdOnceDelta (now : JSDate) (year : Int) (r : IncomeRow) : Int :=
  if r.amountCents ≤ 0 then 0
  else if r.frequency = .once then
    if getFullYear r.date = year ∧ r.date ≤ now then r.amountCents else 0
  else 0

/-- Contribution of a record to the modal's `runRateMonthlyCents`: the
monthly-equivalent amount of a currently active recurring record. -/
def ytdRunRateDelta (now : JSDate) (r : IncomeRow) : Int :=
  if r.amountCents ≤ 0 then 0
  else if r.frequency = .once then 0
  else if now < r.date then 0
  else if decide (r.date ≤ now) && r.endDate.all (fun e => decide (now ≤ e))
  then
    match r.frequency with
    | .monthly => r.amountCents
    | .quarterly => roundDiv r.amountCents 3
    | .yearly => roundDiv r.amountCents 12
    | .once => 0
  else 0

/-- The `ytdLines` entry a record produces, if any. -/
def lineFor (now : JSDate) (year : Int) (yearStart : JSDate)
    (r : IncomeRow) : Option (String × YtdLine) :=
  let n := ytdRecordCount now year yearStart r
  if n = 0 then none else some (r.id, lineAt r r.amountCents n)

/-- Contribution of a record to `calcOneOffThisMonthCentsShared`. -/
def oneOffSharedDelta (now : JSDate) (r : IncomeRowLite) : Int :=
  if r.frequency ≠ some .once then 0
  else if !isShared r then 0
  else
    match toDateSafe r.date with
    | none => 0
    | some d =>
      if getFullYear d = getFullYear now ∧ getMonth d = getMonth now then
        r.amountCents.getD 0
      else 0

/-- Contribution of a record to `calcOneOffThisMonthCentsMyPersonal`. -/
def oneOffMyPersonalDelta (uid : String) (now : JSDate)
    (r : IncomeRowLite) : Int :=
  if r.frequency ≠ some .once then 0
  else if !isMyPersonal r uid then 0
  else
    match toDateSafe r.date with
    | none => 0
    | some d =>
      if getFullYear d = getFullYear now ∧ getMonth d = getMonth now then
        r.amountCents.getD 0
      else 0

/-- Contribution of a record to `calcMonthlyEstimatedIncomeCentsShared`. -/
def monthlyEstimatedSharedDelta (now : JSDate) (r : IncomeRowLite) : Int :=
  if !isShared r then 0
  else
    let cents := r.amountCents.getD 0
    if cents ≤ 0 then 0
    else
      let ended : Bool :=
        match toDateSafe r.endDate with
        | some e => decide (endOfDay e < startOfMonth now)
        | none => false
      if ended then 0 else monthlyEstimatedSharedAdd 0 cents r.frequency

/-! #### Basic facts about the date model -/

theorem lt_def (a b : JSDate) : a < b ↔ key a < key b := Iff.rfl

theorem le_def (a b : JSDate) : a ≤ b ↔ key a ≤ key b := Iff.rfl

theorem dim_ge (mi : Int) : 28 ≤ dim mi := by
  unfold dim
  dsimp only
  split_ifs <;> norm_num

theorem dim_le (mi : Int) : dim mi ≤ 31 := by
  unfold dim
  dsimp only
  split_ifs <;> norm_num

theorem normDay_of_range {mi d tod : Int} (fuel : Nat) (h0 : fuel ≠ 0)
    (h1 : 1 ≤ d) (h2 : d ≤ dim mi) :
    normDay fuel mi d tod = ⟨mi, d, tod⟩ := by
  cases fuel with
  | zero => exact absurd rfl h0
  | succ n =>
    unfold normDay
    rw [if_neg (by omega), if_neg (by omega)]

theorem mkDate_eq {y m d : Int} (h1 : 1 ≤ d) (h2 : d ≤ dim (y * 12 + m)) :
    mkDate y m d 0 0 0 0 = ⟨y * 12 + m, d, 0⟩ := by
  simp only [mkDate]
  norm_num
  exact normDay_of_range _ (by omega) h1 h2

theorem mkDate_eod_eq {y m d : Int} (h1 : 1 ≤ d)
    (h2 : d ≤ dim (y * 12 + m)) :
    mkDate y m d 23 59 59 999 = ⟨y * 12 + m, d, 86399999⟩ := by
  simp only [mkDate]
  norm_num
  exact normDay_of_range _ (by omega) h1 h2

theorem mkDate_day0 (y m : Int) :
    mkDate y m 0 0 0 0 0 = ⟨y * 12 + m - 1, dim (y * 12 + m - 1), 0⟩ := by
  have hg := dim_ge (y * 12 + m - 1)
  simp only [mkDate]
  norm_num
  show normDay 2 (y * 12 + m) 0 0 = _
  unfold normDay
  rw [if_pos (by omega)]
  rw [show (0 : Int) + dim (y * 12 + m - 1) = dim (y * 12 + m - 1) from by
    omega]
  exact normDay_of_range 1 (by omega) (by omega) le_rfl

theorem mkDate_day0_eod (y m : Int) :
    mkDate y m 0 23 59 59 999 =
      ⟨y * 12 + m - 1, dim (y * 12 + m - 1), 86399999⟩ := by
  have hg := dim_ge (y * 12 + m - 1)
  simp only [mkDate]
  norm_num
  show normDay 2 (y * 12 + m) 0 86399999 = _
  unfold normDay
  rw [if_pos (by omega)]
  rw [show (0 : Int) + dim (y * 12 + m - 1) = dim (y * 12 + m - 1) from by
    omega]
  exact normDay_of_range 1 (by omega) (by omega) le_rfl

theorem recompose (t : JSDate) : getFullYear t * 12 + getMonth t = t.mi := by
  unfold getFullYear getMonth
  omega

theorem daysInMonth_eq (y m : Int) : daysInMonth y m = dim (y * 12 + m) := by
  unfold daysInMonth
  rw [mkDate_day0]
  show dim (y * 12 + (m + 1) - 1) = dim (y * 12 + m)
  congr 1
  omega

theorem addMonthsClamped_spec (t : JSDate) (n : Int) (h1 : 1 ≤ t.d) :
    addMonthsClamped t n = ⟨t.mi + n, min t.d (dim (t.mi + n)), 0⟩ := by
  have hrec := recompose t
  have hg := dim_ge (t.mi + n)
  have hidx : getFullYear t * 12 + (getMonth t + n) = t.mi + n := by omega
  have htar : mkDate (getFullYear t) (getMonth t + n) 1 0 0 0 0 =
      (⟨t.mi + n, 1, 0⟩ : JSDate) := by
    rw [mkDate_eq le_rfl (by rw [hidx]; omega), hidx]
  simp only [addMonthsClamped, htar]
  have hrec2 : getFullYear (⟨t.mi + n, 1, 0⟩ : JSDate) * 12 +
      getMonth (⟨t.mi + n, 1, 0⟩ : JSDate) = t.mi + n :=
    recompose ⟨t.mi + n, 1, 0⟩
  rw [daysInMonth_eq, hrec2]
  unfold getDate
  rw [mkDate_eq (by omega) (by rw [hrec2]; omega)]
  rw [hrec2]

theorem addMonths28 (t : JSDate) (n : Int) (h1 : 1 ≤ t.d)
    (h2 : t.d ≤ 28) : addMonthsClamped t n = ⟨t.mi + n, t.d, 0⟩ := by
  rw [addMonthsClamped_spec t n h1]
  have := dim_ge (t.mi + n)
  congr 1
  omega

theorem lt_of_mi_lt {a b : JSDate} (ha : 1 ≤ a.d ∧ a.d ≤ 31 ∧ 0 ≤ a.tod ∧
    a.tod < 86400000) (hb : 1 ≤ b.d ∧ b.d ≤ 31 ∧ 0 ≤ b.tod ∧
    b.tod < 86400000) (h : a.mi < b.mi) : a < b := by
  rw [lt_def]
  unfold key
  omega

theorem mi_le_of_le {a b : JSDate} (ha : 1 ≤ a.d ∧ a.d ≤ 31 ∧ 0 ≤ a.tod ∧
    a.tod < 86400000) (hb : 1 ≤ b.d ∧ b.d ≤ 31 ∧ 0 ≤ b.tod ∧
    b.tod < 86400000) (h : a ≤ b) : a.mi ≤ b.mi := by
  rw [le_def] at h
  unfold key at h
  omega

theorem bounds_of_valid {t : JSDate} (h : ValidDate t) :
    1 ≤ t.d ∧ t.d ≤ 31 ∧ 0 ≤ t.tod ∧ t.tod < 86400000 := by
  obtain ⟨h1, h2, h3, h4⟩ := h
  have := dim_le t.mi
  exact ⟨h1, by omega, h3, h4⟩

theorem midnight_le (t : JSDate) (h : 0 ≤ t.tod) :
    (⟨t.mi, t.d, 0⟩ : JSDate) ≤ t := by
  rw [le_def]
  unfold key
  dsimp only
  omega

theorem nextOccurrence_rec (t : JSDate) {freq : Frequency}
    (hf : freq ≠ .once) :
    nextOccurrence t freq = addMonthsClamped t (stepMonthsOf freq) := by
  cases freq <;> simp_all [nextOccurrence, stepMonthsOf]

theorem stepMonthsOf_pos {freq : Frequency} (hf : freq ≠ .once) :
    1 ≤ stepMonthsOf freq := by
  cases freq <;> simp_all [stepMonthsOf]

theorem iterOcc_spec (start : JSDate) {freq : Frequency} (hf : freq ≠ .once)
    (h1 : 1 ≤ start.d) (h2 : start.d ≤ 28) :
    ∀ n : Nat, 1 ≤ n → iterOcc start freq n =
      ⟨start.mi + n * stepMonthsOf freq, start.d, 0⟩ := by
  intro n hn
  induction n with
  | zero => omega
  | succ m ih =>
    by_cases hm : 1 ≤ m
    · show nextOccurrence (iterOcc start freq m) freq = _
      rw [ih hm, nextOccurrence_rec _ hf,
        addMonths28 ⟨start.mi + m * stepMonthsOf freq, start.d, 0⟩ _ h1 h2]
      show (⟨start.mi + m * stepMonthsOf freq + stepMonthsOf freq,
        start.d, 0⟩ : JSDate) = _
      congr 1
      push_cast
      ring
    · have hm0 : m = 0 := by omega
      subst hm0
      show nextOccurrence start freq = _
      rw [nextOccurrence_rec _ hf, addMonths28 start _ h1 h2]
      congr 1
      push_cast
      ring

/-! #### Agreement of `firstOnOrAfter` with the naive occurrence scan -/

theorem jle_of_jlt {a b : JSDate} (h : a < b) : a ≤ b := by
  rw [le_def]
  rw [lt_def] at h
  omega

theorem jlt_of_not_jle {a b : JSDate} (h : ¬ a ≤ b) : b < a := by
  rw [lt_def]
  rw [le_def] at h
  omega

theorem not_jlt_of_jle {a b : JSDate} (h : a ≤ b) : ¬ b < a := by
  rw [lt_def]
  rw [le_def] at h
  omega

theorem foLoop_stop {target : JSDate} {s : Int} (fuel : Nat) (cur : JSDate)
    (h : ¬ cur < target) : foLoop target s fuel cur = cur := by
  cases fuel with
  | zero => rfl
  | succ n =>
    unfold foLoop
    rw [if_neg h]

theorem foLoop_adv {target : JSDate} {s : Int} (fuel : Nat) (cur : JSDate)
    (h1 : cur < target) (h2 : addMonthsClamped cur s ≠ cur) :
    foLoop target s (fuel + 1) cur =
      foLoop target s fuel (addMonthsClamped cur s) := by
  show (if cur < target then
      (if addMonthsClamped cur s = cur then cur
        else foLoop target s fuel (addMonthsClamped cur s))
    else cur) = _
  rw [if_pos h1, if_neg h2]

theorem firstOnOrAfter_agree (start target : JSDate) {freq : Frequency}
    (hf : freq ≠ .once) (hs : ValidDate start) (ht : ValidDate target)
    (hd : start.d ≤ 28) :
    ∃ k : Nat, firstOnOrAfter start target freq = iterOcc start freq k ∧
      target ≤ iterOcc start freq k ∧
      ∀ j : Nat, j < k → iterOcc start freq j < target := by
  have hs1 : 1 ≤ stepMonthsOf freq := stepMonthsOf_pos hf
  have hbs := bounds_of_valid hs
  have hbt := bounds_of_valid ht
  by_cases h0 : target ≤ start
  · refine ⟨0, ?_, h0, by omega⟩
    unfold firstOnOrAfter
    rw [if_pos h0]
    rfl
  · have hlt : start < target := jlt_of_not_jle h0
    have hmile : start.mi ≤ target.mi := mi_le_of_le hbs hbt (jle_of_jlt hlt)
    simp only [firstOnOrAfter, if_neg h0, if_neg (show ¬ stepMonthsOf freq = 0
      by omega)]
    clear h0
    set s := stepMonthsOf freq with hsdef
    set D := (getFullYear target - getFullYear start) * 12 +
      (getMonth target - getMonth start) with hDdef
    have hD : D = target.mi - start.mi := by
      have h1 := recompose start
      have h2 := recompose target
      omega
    set k : Int := D / s * s with hkdef
    have hemod1 : D % s < s := Int.emod_lt_of_pos D (by omega)
    have hemod0 : 0 ≤ D % s := Int.emod_nonneg D (by omega)
    have hmulc : s * (D / s) = D / s * s := by ring
    have hkD : k = D - D % s := by
      have h1 := Int.ediv_add_emod D s
      rw [hkdef]
      linarith
    have hkle : k ≤ D := by linarith
    have hkgt : D - s < k := by linarith
    have hq0 : 0 ≤ D / s := Int.ediv_nonneg (by omega) (by omega)
    have hk0 : 0 ≤ k := by
      rw [hkdef]
      positivity
    set q : Nat := (D / s).toNat with hqdef
    have hqcast : (q : Int) = D / s := Int.toNat_of_nonneg hq0
    have hkq : k = (q : Int) * s := by
      rw [hkdef, hqcast]
    have hcur : addMonthsClamped start k = ⟨start.mi + k, start.d, 0⟩ :=
      addMonths28 start k hbs.1 hd
    rw [hcur]
    by_cases hA : target ≤ (⟨start.mi + k, start.d, 0⟩ : JSDate)
    · -- the whole-step jump already lands on or after the target
      have hkpos : 1 ≤ k := by
        by_contra hk1
        have hk00 : k = 0 := by omega
        rw [hk00] at hA
        have hmle := midnight_le start hbs.2.2.1
        rw [le_def] at hA hmle
        rw [lt_def] at hlt
        unfold key at hA hmle hlt
        dsimp only at hA hmle hlt
        omega
      have hq1 : 1 ≤ q := by
        rcases Nat.eq_zero_or_pos q with hq | hq
        · rw [hq] at hkq
          simp at hkq
          omega
        · omega
      refine ⟨q, ?_, ?_, ?_⟩
      · rw [iterOcc_spec start hf hbs.1 hd q hq1, ← hkq,
          foLoop_stop 2000 _ (not_jlt_of_jle hA)]
      · rw [iterOcc_spec start hf hbs.1 hd q hq1, ← hkq]
        exact hA
      · intro j hj
        rcases Nat.eq_zero_or_pos j with hj0 | hj1
        · rw [hj0]
          exact hlt
        · rw [iterOcc_spec start hf hbs.1 hd j hj1]
          have hjq : (j : Int) ≤ (q : Int) - 1 := by
            have : (j : Int) < (q : Int) := by exact_mod_cast hj
            omega
          have hjs : (j : Int) * s ≤ ((q : Int) - 1) * s :=
            mul_le_mul_of_nonneg_right hjq (by omega)
          have hmi : start.mi + (j : Int) * s < target.mi := by
            have hqs : ((q : Int) - 1) * s = k - s := by
              rw [hkq]
              ring
            linarith
          exact lt_of_mi_lt ⟨hbs.1, by dsimp only; omega, by dsimp only; omega, by dsimp only; omega⟩ hbt hmi
    · -- the jump is still short of the target: one linear step finishes
      have hcur_lt : (⟨start.mi + k, start.d, 0⟩ : JSDate) < target :=
        jlt_of_not_jle hA
      clear hA
      have hnext : addMonthsClamped (⟨start.mi + k, start.d, 0⟩ : JSDate) s =
          ⟨start.mi + k + s, start.d, 0⟩ :=
        addMonths28 _ s hbs.1 hd
      have hne : (⟨start.mi + k + s, start.d, 0⟩ : JSDate) ≠
          ⟨start.mi + k, start.d, 0⟩ := by
        intro h
        have h2 := congrArg JSDate.mi h
        dsimp only at h2
        omega
      have hkDs : D - k < s := by linarith
      have hmi2 : target.mi < start.mi + k + s := by omega
      have htlt : target < (⟨start.mi + k + s, start.d, 0⟩ : JSDate) :=
        lt_of_mi_lt hbt ⟨hbs.1, by dsimp only; omega, by dsimp only; omega, by dsimp only; omega⟩ hmi2
      have hstep : foLoop target s 2000 (⟨start.mi + k, start.d, 0⟩ :
          JSDate) = ⟨start.mi + k + s, start.d, 0⟩ := by
        have h1 := foLoop_adv 1999
          ⟨start.mi + k, start.d, 0⟩ hcur_lt (by rw [hnext]; exact hne)
        rw [show (2000 : Nat) = 1999 + 1 from rfl, h1, hnext,
          foLoop_stop 1999 _ (not_jlt_of_jle (jle_of_jlt htlt))]
      refine ⟨q + 1, ?_, ?_, ?_⟩
      · rw [iterOcc_spec start hf hbs.1 hd (q + 1) (by omega), hstep]
        have hx : ((q : Int) + 1) * s = k + s := by
          rw [hkq]
          ring
        simp only [JSDate.mk.injEq, and_true]
        push_cast
        linarith
      · rw [iterOcc_spec start hf hbs.1 hd (q + 1) (by omega)]
        have hx : ((q : Int) + 1) * s = k + s := by
          rw [hkq]
          ring
        have hcast : start.mi + (((q : Nat) + 1 : Nat) : Int) * s =
            start.mi + k + s := by
          push_cast
          push_cast at hx
          linarith
        rw [hcast]
        exact jle_of_jlt htlt
      · intro j hj
        rcases Nat.eq_zero_or_pos j with hj0 | hj1
        · rw [hj0]
          exact hlt
        · rw [iterOcc_spec start hf hbs.1 hd j hj1]
          by_cases hjq : j = q
          · rw [hjq, hqcast]
            have : start.mi + D / s * s = start.mi + k := by
              rw [hkdef]
            rw [this]
            exact hcur_lt
          · have hjq2 : (j : Int) ≤ (q : Int) - 1 := by
              have : j < q := by omega
              have : (j : Int) < (q : Int) := by exact_mod_cast this
              omega
            have hjs : (j : Int) * s ≤ ((q : Int) - 1) * s :=
              mul_le_mul_of_nonneg_right hjq2 (by omega)
            have hmi : start.mi + (j : Int) * s < target.mi := by
              have hqs : ((q : Int) - 1) * s = k - s := by
                rw [hkq]
                ring
              omega
            exact lt_of_mi_lt ⟨hbs.1, by dsimp only; omega, by dsimp only; omega, by dsimp only; omega⟩ hbt hmi

/-! #### Characterisation of the YTD aggregation -/

theorem mapGet_mapSet_self (m : List (String × YtdLine)) (k : String)
    (v : YtdLine) : mapGet (mapSet m k v) k = some v := by
  induction m with
  | nil => simp [mapGet, mapSet]
  | cons p rest ih =>
    by_cases h : p.1 = k
    · simp [mapGet, mapSet, h]
    · simp only [mapSet, mapGet]
      rw [if_neg h, mapGet, if_neg h]
      exact ih

theorem mapSet_of_none (m : List (String × YtdLine)) (k : String)
    (v : YtdLine) (h : mapGet m k = none) : mapSet m k v = m ++ [(k, v)] := by
  induction m with
  | nil => simp [mapSet]
  | cons p rest ih =>
    rw [mapGet] at h
    by_cases hk : p.1 = k
    · rw [if_pos hk] at h
      cases h
    · rw [if_neg hk] at h
      show mapSet (p :: rest) k v = _
      rw [mapSet]
      rw [if_neg hk, ih h]
      rfl

theorem mapGet_append_self (m : List (String × YtdLine)) (k : String)
    (v : YtdLine) (h : mapGet m k = none) :
    mapGet (m ++ [(k, v)]) k = some v := by
  induction m with
  | nil => simp [mapGet]
  | cons p rest ih =>
    rw [mapGet] at h
    by_cases hk : p.1 = k
    · rw [if_pos hk] at h
      cases h
    · rw [if_neg hk] at h
      show mapGet (p :: (rest ++ [(k, v)])) k = some v
      rw [mapGet, if_neg hk]
      exact ih h

theorem mapSet_append_self (m : List (String × YtdLine)) (k : String)
    (v w : YtdLine) (h : mapGet m k = none) :
    mapSet (m ++ [(k, v)]) k w = m ++ [(k, w)] := by
  induction m with
  | nil => simp [mapSet]
  | cons p rest ih =>
    rw [mapGet] at h
    by_cases hk : p.1 = k
    · rw [if_pos hk] at h
      cases h
    · rw [if_neg hk] at h
      show mapSet (p :: (rest ++ [(k, v)])) k w = _
      rw [mapSet, if_neg hk, ih h]
      rfl

theorem mapGet_eq_none_iff (m : List (String × YtdLine)) (k : String) :
    mapGet m k = none ↔ k ∉ mapKeys m := by
  induction m with
  | nil => simp [mapGet, mapKeys]
  | cons p rest ih =>
    rw [mapGet]
    by_cases hk : p.1 = k
    · simp [mapKeys, hk]
    · rw [if_neg hk]
      simp only [mapKeys, List.map_cons, List.mem_cons]
      rw [ih]
      unfold mapKeys
      constructor
      · intro hh hc
        rcases hc with hc | hc
        · exact hk hc.symm
        · exact hh hc
      · intro hh
        exact fun hc => hh (Or.inr hc)

theorem bumpN_comm (r : IncomeRow) (cents : Int) (n : Nat)
    (m : List (String × YtdLine)) :
    bumpN r cents n (bumpLine r cents m) =
      bumpLine r cents (bumpN r cents n m) := by
  induction n with
  | zero => rfl
  | succ j ih =>
    show bumpLine r cents (bumpN r cents j (bumpLine r cents m)) = _
    rw [ih]
    rfl

theorem lineAt_one (r : IncomeRow) (cents : Int) :
    (⟨r.id, r.source, r.frequency, cents, 1, cents⟩ : YtdLine) =
      lineAt r cents 1 := by
  unfold lineAt
  norm_num

theorem lineAt_step (r : IncomeRow) (cents : Int) (j : Nat) :
    ({ lineAt r cents j with
      count := (lineAt r cents j).count + 1
      subtotalCents := (lineAt r cents j).subtotalCents + cents } :
        YtdLine) = lineAt r cents (j + 1) := by
  unfold lineAt
  simp only [YtdLine.mk.injEq, and_true, true_and]
  push_cast
  ring

theorem bumpN_fresh (r : IncomeRow) (cents : Int)
    (m : List (String × YtdLine)) (h : mapGet m r.id = none) :
    ∀ n : Nat, 1 ≤ n →
      bumpN r cents n m = m ++ [(r.id, lineAt r cents n)] := by
  intro n hn
  induction n with
  | zero => omega
  | succ j ih =>
    by_cases hj : 1 ≤ j
    · show bumpLine r cents (bumpN r cents j m) = _
      rw [ih hj]
      unfold bumpLine
      rw [mapGet_append_self m _ _ h]
      dsimp only
      rw [mapSet_append_self m _ _ _ h, lineAt_step]
    · have hj0 : j = 0 := by omega
      subst hj0
      show bumpLine r cents m = _
      unfold bumpLine
      rw [h]
      dsimp only
      rw [mapSet_of_none m _ _ h, lineAt_one]

theorem bumpN_keys (r : IncomeRow) (cents : Int)
    (m : List (String × YtdLine)) (h : mapGet m r.id = none) (n : Nat) :
    mapKeys (bumpN r cents n m) = mapKeys m ∨
      mapKeys (bumpN r cents n m) = mapKeys m ++ [r.id] := by
  rcases Nat.eq_zero_or_pos n with h0 | h1
  · subst h0
    exact Or.inl rfl
  · rw [bumpN_fresh r cents m h n h1]
    right
    unfold mapKeys
    simp

theorem ytdLoop_once_eq (year : Int) (r : IncomeRow) (cents : Int)
    (effEnd : JSDate) :
    ∀ (fuel : Nat) (cur : JSDate) (st : YtdState),
      (ytdLoop year r cents effEnd fuel cur st).once = st.once := by
  intro fuel
  induction fuel with
  | zero => intro cur st; rfl
  | succ fuel ih =>
    intro cur st
    simp only [ytdLoop]
    split_ifs <;> first
      | rfl
      | rw [ih]

theorem ytdLoop_rr_eq (year : Int) (r : IncomeRow) (cents : Int)
    (effEnd : JSDate) :
    ∀ (fuel : Nat) (cur : JSDate) (st : YtdState),
      (ytdLoop year r cents effEnd fuel cur st).runRateMonthly =
        st.runRateMonthly := by
  intro fuel
  induction fuel with
  | zero => intro cur st; rfl
  | succ fuel ih =>
    intro cur st
    simp only [ytdLoop]
    split_ifs <;> first
      | rfl
      | rw [ih]

theorem ytdLoop_rec_eq (year : Int) (r : IncomeRow) (cents : Int)
    (effEnd : JSDate) :
    ∀ (fuel : Nat) (cur : JSDate) (st : YtdState),
      (ytdLoop year r cents effEnd fuel cur st).recurrentYtd =
        st.recurrentYtd +
          cents * ytdCount year r.frequency effEnd fuel cur := by
  intro fuel
  induction fuel with
  | zero =>
    intro cur st
    show st.recurrentYtd = _
    rw [show ytdCount year r.frequency effEnd 0 cur = 0 from rfl]
    push_cast
    ring
  | succ fuel ih =>
    intro cur st
    simp only [ytdLoop, ytdCount]
    by_cases h1 : cur ≤ effEnd
    · simp only [if_pos h1]
      by_cases h2 : getFullYear cur = year
      · simp only [if_pos h2]
        by_cases h3 : nextOccurrence cur r.frequency = cur
        · simp only [if_pos h3]
          push_cast
          ring
        · simp only [if_neg h3, ih]
          push_cast
          ring
      · simp only [if_neg h2]
        by_cases h3 : nextOccurrence cur r.frequency = cur
        · simp only [if_pos h3]
          push_cast
          ring
        · simp only [if_neg h3, ih]
          push_cast
          ring
    · simp only [if_neg h1]
      push_cast
      ring

theorem ytdLoop_bd_eq (year : Int) (r : IncomeRow) (cents : Int)
    (effEnd : JSDate) :
    ∀ (fuel : Nat) (cur : JSDate) (st : YtdState),
      (ytdLoop year r cents effEnd fuel cur st).breakdown =
        bumpN r cents (ytdCount year r.frequency effEnd fuel cur)
          st.breakdown := by
  intro fuel
  induction fuel with
  | zero => intro cur st; rfl
  | succ fuel ih =>
    intro cur st
    simp only [ytdLoop, ytdCount]
    by_cases h1 : cur ≤ effEnd
    · simp only [if_pos h1]
      by_cases h2 : getFullYear cur = year
      · simp only [if_pos h2]
        by_cases h3 : nextOccurrence cur r.frequency = cur
        · simp only [if_pos h3]
          rfl
        · simp only [if_neg h3, ih]
          show bumpN r cents (ytdCount year r.frequency effEnd fuel
            (nextOccurrence cur r.frequency))
            (bumpLine r cents st.breakdown) = _
          rw [bumpN_comm, Nat.add_comm]
          rfl
      · simp only [if_neg h2]
        by_cases h3 : nextOccurrence cur r.frequency = cur
        · simp only [if_pos h3]
          rfl
        · simp only [if_neg h3, ih]
          rw [Nat.zero_add]
    · simp only [if_neg h1]
      rfl

theorem processYtdRow_once (now : JSDate) (year : Int) (ys : JSDate)
    (st : YtdState) (r : IncomeRow) :
    (processYtdRow now year ys st r).once =
      st.once + ytdOnceDelta now year r := by
  unfold processYtdRow ytdOnceDelta
  by_cases hc : r.amountCents ≤ 0
  · simp only [if_pos hc]
    omega
  · simp only [if_neg hc]
    by_cases hf : r.frequency = .once
    · simp only [if_pos hf]
      by_cases hd : getFullYear r.date = year ∧ r.date ≤ now
      · simp only [if_pos hd]
      · simp only [if_neg hd]
        omega
    · simp only [if_neg hf]
      by_cases hn : now < r.date
      · simp only [if_pos hn]
        omega
      · simp only [if_neg hn]
        rw [ytdLoop_once_eq]
        by_cases ha : (decide (r.date ≤ now) &&
            r.endDate.all fun e => decide (now ≤ e)) = true
        · simp only [if_pos ha]
          cases hq : r.frequency <;> simp_all
        · simp only [if_neg ha]
          omega

theorem processYtdRow_rr (now : JSDate) (year : Int) (ys : JSDate)
    (st : YtdState) (r : IncomeRow) :
    (processYtdRow now year ys st r).runRateMonthly =
      st.runRateMonthly + ytdRunRateDelta now r := by
  unfold processYtdRow ytdRunRateDelta
  by_cases hc : r.amountCents ≤ 0
  · simp only [if_pos hc]
    omega
  · simp only [if_neg hc]
    by_cases hf : r.frequency = .once
    · simp only [if_pos hf]
      by_cases hd : getFullYear r.date = year ∧ r.date ≤ now
      · simp only [if_pos hd]
        omega
      · simp only [if_neg hd]
        omega
    · simp only [if_neg hf]
      by_cases hn : now < r.date
      · simp only [if_pos hn]
        omega
      · simp only [if_neg hn]
        rw [ytdLoop_rr_eq]
        by_cases ha : (decide (r.date ≤ now) &&
            r.endDate.all fun e => decide (now ≤ e)) = true
        · simp only [if_pos ha]
          cases hq : r.frequency <;> simp_all
        · simp only [if_neg ha]
          omega

theorem processYtdRow_rec (now : JSDate) (year : Int) (ys : JSDate)
    (st : YtdState) (r : IncomeRow) :
    (processYtdRow now year ys st r).recurrentYtd =
      st.recurrentYtd + r.amountCents * ytdRecordCount now year ys r := by
  unfold processYtdRow ytdRecordCount
  by_cases hc : r.amountCents ≤ 0
  · simp only [if_pos hc]
    push_cast
    ring
  · simp only [if_neg hc]
    by_cases hf : r.frequency = .once
    · simp only [if_pos hf]
      by_cases hd : getFullYear r.date = year ∧ r.date ≤ now
      · simp only [if_pos hd]
        push_cast
        ring
      · simp only [if_neg hd]
        push_cast
        ring
    · simp only [if_neg hf]
      by_cases hn : now < r.date
      · simp only [if_pos hn]
        push_cast
        ring
      · simp only [if_neg hn]
        rw [ytdLoop_rec_eq]
        have hst1 : ∀ b : Bool, ((if b then
            match r.frequency with
            | .monthly =>
              { st with runRateMonthly := st.runRateMonthly + r.amountCents }
            | .quarterly => { st with runRateMonthly :=
                st.runRateMonthly + roundDiv r.amountCents 3 }
            | .yearly => { st with runRateMonthly :=
                st.runRateMonthly + roundDiv r.amountCents 12 }
            | .once => st
          else st) : YtdState).recurrentYtd = st.recurrentYtd := by
          intro b
          cases b
          · rfl
          · cases r.frequency <;> rfl
        rw [hst1]
        unfold ytdEffEnd
        rfl

theorem processYtdRow_bd (now : JSDate) (year : Int) (ys : JSDate)
    (st : YtdState) (r : IncomeRow) :
    (processYtdRow now year ys st r).breakdown =
      bumpN r r.amountCents (ytdRecordCount now year ys r) st.breakdown := by
  unfold processYtdRow ytdRecordCount
  by_cases hc : r.amountCents ≤ 0
  · simp only [if_pos hc]
    rfl
  · simp only [if_neg hc]
    by_cases hf : r.frequency = .once
    · simp only [if_pos hf]
      by_cases hd : getFullYear r.date = year ∧ r.date ≤ now
      · simp only [if_pos hd]
        rfl
      · simp only [if_neg hd]
        rfl
    · simp only [if_neg hf]
      by_cases hn : now < r.date
      · simp only [if_pos hn]
        rfl
      · simp only [if_neg hn]
        rw [ytdLoop_bd_eq]
        have hst1 : ∀ b : Bool, ((if b then
            match r.frequency with
            | .monthly =>
              { st with runRateMonthly := st.runRateMonthly + r.amountCents }
            | .quarterly => { st with runRateMonthly :=
                st.runRateMonthly + roundDiv r.amountCents 3 }
            | .yearly => { st with runRateMonthly :=
                st.runRateMonthly + roundDiv r.amountCents 12 }
            | .once => st
          else st) : YtdState).breakdown = st.breakdown := by
          intro b
          cases b
          · rfl
          · cases r.frequency <;> rfl
        rw [hst1]
        unfold ytdEffEnd
        rfl

theorem foldl_sum {σ α : Type} (f : σ → α → σ) (g : σ → Int) (δ : α → Int)
    (h : ∀ s a, g (f s a) = g s + δ a) :
    ∀ (l : List α) (s : σ), g (l.foldl f s) = g s + (l.map δ).sum := by
  intro l
  induction l with
  | nil =>
    intro s
    simp
  | cons a t ih =>
    intro s
    simp only [List.foldl_cons, List.map_cons, List.sum_cons]
    rw [ih, h]
    ring

theorem ytd_fold_bd (now : JSDate) (year : Int) (ys : JSDate) :
    ∀ (rows : List IncomeRow) (st : YtdState),
      (rows.map IncomeRow.id).Nodup →
      (∀ r ∈ rows, r.id ∉ mapKeys st.breakdown) →
      (rows.foldl (processYtdRow now year ys) st).breakdown =
        st.breakdown ++ rows.filterMap (lineFor now year ys) := by
  intro rows
  induction rows with
  | nil =>
    intro st _ _
    simp
  | cons r t ih =>
    intro st hnd hdis
    simp only [List.foldl_cons, List.filterMap_cons]
    have hget : mapGet st.breakdown r.id = none :=
      (mapGet_eq_none_iff _ _).mpr (hdis r (by simp))
    have hbd := processYtdRow_bd now year ys st r
    have hndt : (t.map IncomeRow.id).Nodup := by
      simp only [List.map_cons, List.nodup_cons] at hnd
      exact hnd.2
    have hrid : r.id ∉ t.map IncomeRow.id := by
      simp only [List.map_cons, List.nodup_cons] at hnd
      exact hnd.1
    rcases Nat.eq_zero_or_pos (ytdRecordCount now year ys r) with h0 | h1
    · have hline : lineFor now year ys r = none := by
        unfold lineFor
        rw [if_pos h0]
      rw [hline]
      have hbd0 : (processYtdRow now year ys st r).breakdown =
          st.breakdown := by
        rw [hbd, h0]
        rfl
      rw [ih (processYtdRow now year ys st r) hndt
        (by rw [hbd0]; intro r' hr'; exact hdis r' (by simp [hr'])), hbd0]
    · have hline : lineFor now year ys r =
          some (r.id, lineAt r r.amountCents (ytdRecordCount now year ys r)) := by
        unfold lineFor
        rw [if_neg (by omega)]
      rw [hline]
      have hbd1 : (processYtdRow now year ys st r).breakdown =
          st.breakdown ++ [(r.id, lineAt r r.amountCents
            (ytdRecordCount now year ys r))] := by
        rw [hbd, bumpN_fresh r _ _ hget _ h1]
      rw [ih (processYtdRow now year ys st r) hndt ?hdis2, hbd1,
        List.append_assoc]
      rfl
      case hdis2 =>
        intro r' hr'
        rw [hbd1]
        unfold mapKeys
        simp only [List.map_append, List.mem_append]
        intro hmem
        rcases hmem with hmem | hmem
        · exact hdis r' (by simp [hr']) hmem
        · simp only [List.map_cons, List.map_nil, List.mem_singleton] at hmem
          exact hrid (by
            rw [← hmem]
            exact List.mem_map_of_mem IncomeRow.id hr')

theorem ytdAgg_once_eq (rows : List IncomeRow) (now : JSDate) (year : Int) :
    (ytdAgg rows now year).onceYtdCents =
      (rows.map (ytdOnceDelta now year)).sum := by
  show (rows.foldl (processYtdRow now year (mkDate year 0 1 0 0 0 0))
    ⟨0, 0, 0, []⟩).once = _
  rw [foldl_sum _ (fun st => st.once) _
    (fun s a => processYtdRow_once now year (mkDate year 0 1 0 0 0 0) s a)]
  show 0 + _ = _
  ring

theorem ytdAgg_rr_eq (rows : List IncomeRow) (now : JSDate) (year : Int) :
    (ytdAgg rows now year).runRateMonthlyCents =
      (rows.map (ytdRunRateDelta now)).sum := by
  show (rows.foldl (processYtdRow now year (mkDate year 0 1 0 0 0 0))
    ⟨0, 0, 0, []⟩).runRateMonthly = _
  rw [foldl_sum _ (fun st => st.runRateMonthly) _
    (fun s a => processYtdRow_rr now year (mkDate year 0 1 0 0 0 0) s a)]
  show 0 + _ = _
  ring

theorem ytdAgg_rec_eq (rows : List IncomeRow) (now : JSDate) (year : Int) :
    (ytdAgg rows now year).recurrentYtdCents =
      (rows.map (fun r => r.amountCents *
        ytdRecordCount now year (mkDate year 0 1 0 0 0 0) r)).sum := by
  show (rows.foldl (processYtdRow now year (mkDate year 0 1 0 0 0 0))
    ⟨0, 0, 0, []⟩).recurrentYtd = _
  rw [foldl_sum _ (fun st => st.recurrentYtd) _
    (fun s a => processYtdRow_rec now year (mkDate year 0 1 0 0 0 0) s a)]
  show 0 + _ = _
  ring

theorem ytdAgg_ytd_eq (rows : List IncomeRow) (now : JSDate) (year : Int) :
    (ytdAgg rows now year).ytdCents =
      (ytdAgg rows now year).onceYtdCents +
        (ytdAgg rows now year).recurrentYtdCents := rfl

theorem ytdAgg_lines_eq (rows : List IncomeRow) (now : JSDate) (year : Int)
    (hnd : (rows.map IncomeRow.id).Nodup) :
    (ytdAgg rows now year).ytdLines =
      ((rows.filterMap (lineFor now year
        (mkDate year 0 1 0 0 0 0))).map Prod.snd).mergeSort subtotalGe := by
  show ((rows.foldl (processYtdRow now year (mkDate year 0 1 0 0 0 0))
    ⟨0, 0, 0, []⟩).breakdown.map Prod.snd).mergeSort subtotalGe = _
  rw [ytd_fold_bd now year (mkDate year 0 1 0 0 0 0) rows ⟨0, 0, 0, []⟩ hnd
    (by intro r hr; simp [mapKeys])]
  rfl

theorem subtotalGe_trans (a b c : YtdLine) (h1 : subtotalGe a b = true)
    (h2 : subtotalGe b c = true) : subtotalGe a c = true := by
  simp only [subtotalGe, decide_eq_true_eq] at *
  omega

theorem subtotalGe_total (a b : YtdLine) :
    (subtotalGe a b || subtotalGe b a) = true := by
  simp only [subtotalGe, Bool.or_eq_true, decide_eq_true_eq]
  omega

theorem lineFor_sum (now : JSDate) (year : Int) (ys : JSDate) :
    ∀ rows : List IncomeRow,
      (((rows.filterMap (lineFor now year ys)).map Prod.snd).map
        YtdLine.subtotalCents).sum =
      (rows.map (fun r => r.amountCents *
        ytdRecordCount now year ys r)).sum := by
  intro rows
  induction rows with
  | nil => simp
  | cons r t ih =>
    simp only [List.filterMap_cons, List.map_cons, List.sum_cons]
    rcases Nat.eq_zero_or_pos (ytdRecordCount now year ys r) with h0 | h1
    · have hline : lineFor now year ys r = none := by
        unfold lineFor
        rw [if_pos h0]
      rw [hline, ih, h0]
      push_cast
      ring
    · have hline : lineFor now year ys r =
          some (r.id, lineAt r r.amountCents
            (ytdRecordCount now year ys r)) := by
        unfold lineFor
        rw [if_neg (by omega)]
      rw [hline]
      simp only [List.map_cons, List.sum_cons]
      rw [ih]
      rfl

/-! #### Per-record facts about the monthly series builder and dashboard
helpers -/

theorem processSeriesRow_skip_amount (now start endW : JSDate)
    (mb : Nat) (buckets : List Int) (r : IncomeRowLite)
    (h : r.amountCents.getD 0 ≤ 0) :
    processSeriesRow now start endW mb buckets r = buckets := by
  unfold processSeriesRow
  rw [if_pos h]

theorem processSeriesRow_skip_date (now start endW : JSDate)
    (mb : Nat) (buckets : List Int) (r : IncomeRowLite)
    (h : toDateSafe r.date = none) :
    processSeriesRow now start endW mb buckets r = buckets := by
  unfold processSeriesRow
  by_cases hc : r.amountCents.getD 0 ≤ 0
  · rw [if_pos hc]
  · rw [if_neg hc, h]
    cases r.frequency <;> rfl

theorem processSeriesRow_skip_freq (now start endW : JSDate)
    (mb : Nat) (buckets : List Int) (r : IncomeRowLite)
    (h : r.frequency = none) :
    processSeriesRow now start endW mb buckets r = buckets := by
  unfold processSeriesRow
  by_cases hc : r.amountCents.getD 0 ≤ 0
  · rw [if_pos hc]
  · rw [if_neg hc, h]

theorem processSeriesRow_skip_future (now start endW : JSDate)
    (mb : Nat) (buckets : List Int) (r : IncomeRowLite) (d : JSDate)
    (hd : toDateSafe r.date = some d) (h : now < d) :
    processSeriesRow now start endW mb buckets r = buckets := by
  unfold processSeriesRow
  by_cases hc : r.amountCents.getD 0 ≤ 0
  · rw [if_pos hc]
  · rw [if_neg hc, hd]
    cases hf : r.frequency with
    | none => rfl
    | some freq =>
      dsimp only
      by_cases ho : freq = .once
      · rw [if_pos ho, if_pos h]
      · rw [if_neg ho, if_pos h]

theorem foldl_skip {σ α : Type} (f : σ → α → σ) (a : α)
    (h : ∀ s : σ, f s a = s) (pre post : List α) (s : σ) :
    (pre ++ a :: post).foldl f s = (pre ++ post).foldl f s := by
  simp only [List.foldl_append, List.foldl_cons]
  rw [h]

theorem monthlyEstimatedSharedAdd_shift (total cents : Int)
    (f : Option Frequency) :
    monthlyEstimatedSharedAdd total cents f =
      total + monthlyEstimatedSharedAdd 0 cents f := by
  rcases f with _ | f
  · simp [monthlyEstimatedSharedAdd]
  · cases f <;> simp [monthlyEstimatedSharedAdd]

theorem monthlyEstimatedSharedStep_eq (now : JSDate) (total : Int)
    (r : IncomeRowLite) :
    monthlyEstimatedSharedStep now total r =
      total + monthlyEstimatedSharedDelta now r := by
  unfold monthlyEstimatedSharedStep monthlyEstimatedSharedDelta
  by_cases hs : !isShared r
  · simp only [if_pos hs]
    omega
  · simp only [if_neg hs]
    by_cases hc : r.amountCents.getD 0 ≤ 0
    · simp only [if_pos hc]
      omega
    · simp only [if_neg hc]
      cases hd : toDateSafe r.endDate with
      | none =>
        dsimp only
        rw [if_neg (by simp)]
        exact monthlyEstimatedSharedAdd_shift _ _ _
      | some e =>
        dsimp only
        simp only [decide_eq_true_eq]
        by_cases he : endOfDay e < startOfMonth now
        · rw [if_pos he, if_pos he]
          omega
        · rw [if_neg he, if_neg he]
          exact monthlyEstimatedSharedAdd_shift _ _ _

theorem oneOffSharedStep_eq (now : JSDate) (total : Int)
    (r : IncomeRowLite) :
    oneOffSharedStep now total r = total + oneOffSharedDelta now r := by
  unfold oneOffSharedStep oneOffSharedDelta
  by_cases hf : r.frequency ≠ some .once
  · simp only [if_pos hf]
    omega
  · simp only [if_neg hf]
    by_cases hs : !isShared r
    · simp only [if_pos hs]
      omega
    · simp only [if_neg hs]
      cases hd : toDateSafe r.date with
      | none =>
        dsimp only
        omega
      | some d =>
        dsimp only
        by_cases hm : getFullYear d = getFullYear now ∧
          getMonth d = getMonth now
        · rw [if_pos hm, if_pos hm]
        · rw [if_neg hm, if_neg hm]
          omega

theorem oneOffMyPersonalStep_eq (uid : String) (now : JSDate) (total : Int)
    (r : IncomeRowLite) :
    oneOffMyPersonalStep uid now total r =
      total + oneOffMyPersonalDelta uid now r := by
  unfold oneOffMyPersonalStep oneOffMyPersonalDelta
  by_cases hf : r.frequency ≠ some .once
  · simp only [if_pos hf]
    omega
  · simp only [if_neg hf]
    by_cases hs : !isMyPersonal r uid
    · simp only [if_pos hs]
      omega
    · simp only [if_neg hs]
      cases hd : toDateSafe r.date with
      | none =>
        dsimp only
        omega
      | some d =>
        dsimp only
        by_cases hm : getFullYear d = getFullYear now ∧
          getMonth d = getMonth now
        · rw [if_pos hm, if_pos hm]
        · rw [if_neg hm, if_neg hm]
          omega

theorem calcOneOffShared_sum (rows : List IncomeRowLite) (now : JSDate) :
    calcOneOffThisMonthCentsShared rows now =
      (rows.map (oneOffSharedDelta now)).sum := by
  unfold calcOneOffThisMonthCentsShared
  rw [foldl_sum _ (fun t => t) _ (fun s a => oneOffSharedStep_eq now s a)]
  ring

theorem calcOneOffMyPersonal_sum (rows : List IncomeRowLite) (uid : String)
    (now : JSDate) :
    calcOneOffThisMonthCentsMyPersonal rows uid now =
      (rows.map (oneOffMyPersonalDelta uid now)).sum := by
  unfold calcOneOffThisMonthCentsMyPersonal
  rw [foldl_sum _ (fun t => t) _
    (fun s a => oneOffMyPersonalStep_eq uid now s a)]
  ring

theorem calcMonthlyEstimatedShared_sum (rows : List IncomeRowLite)
    (now : JSDate) :
    calcMonthlyEstimatedIncomeCentsShared rows now =
      (rows.map (monthlyEstimatedSharedDelta now)).sum := by
  unfold calcMonthlyEstimatedIncomeCentsShared
  rw [foldl_sum _ (fun t => t) _
    (fun s a => monthlyEstimatedSharedStep_eq now s a)]
  ring

/-! #### Loop termination and iteration-bound facts -/

theorem loopIters_le (freq : Frequency) (effEnd : JSDate) :
    ∀ (fuel : Nat) (cur : JSDate), loopIters freq effEnd fuel cur ≤ fuel := by
  intro fuel
  induction fuel with
  | zero =>
    intro cur
    exact le_rfl
  | succ fuel ih =>
    intro cur
    simp only [loopIters]
    by_cases h1 : cur ≤ effEnd
    · rw [if_pos h1]
      by_cases h2 : nextOccurrence cur freq = cur
      · rw [if_pos h2]
        omega
      · rw [if_neg h2]
        have := ih (nextOccurrence cur freq)
        omega
    · rw [if_neg h1]
      omega

theorem loopIters_degenerate (freq : Frequency) (effEnd cur : JSDate)
    (h : nextOccurrence cur freq = cur) (fuel : Nat) :
    loopIters freq effEnd fuel cur ≤ 1 := by
  cases fuel with
  | zero => exact Nat.zero_le 1
  | succ fuel =>
    simp only [loopIters]
    by_cases h1 : cur ≤ effEnd
    · rw [if_pos h1, if_pos h]
    · rw [if_neg h1]
      omega

theorem ytdLoop_past_end (year : Int) (r : IncomeRow) (cents : Int)
    (effEnd : JSDate) (fuel : Nat) (cur : JSDate) (st : YtdState)
    (h : ¬ cur ≤ effEnd) : ytdLoop year r cents effEnd fuel cur st = st := by
  cases fuel with
  | zero => rfl
  | succ fuel =>
    simp only [ytdLoop]
    rw [if_neg h]

theorem seriesLoop_past_end (freq : Frequency) (cents : Int)
    (effEnd start endW : JSDate) (mb fuel : Nat) (cur : JSDate)
    (buckets : List Int) (h : ¬ cur ≤ effEnd) :
    seriesLoop freq cents effEnd start endW mb fuel cur buckets =
      buckets := by
  cases fuel with
  | zero => rfl
  | succ fuel =>
    simp only [seriesLoop]
    rw [if_neg h]

theorem ytdLoop_degenerate (year : Int) (r : IncomeRow) (cents : Int)
    (effEnd cur : JSDate) (st : YtdState)
    (h : nextOccurrence cur r.frequency = cur) (f1 f2 : Nat) :
    ytdLoop year r cents effEnd (f1 + 1) cur st =
      ytdLoop year r cents effEnd (f2 + 1) cur st := by
  simp only [ytdLoop, if_pos h]

theorem seriesLoop_degenerate (freq : Frequency) (cents : Int)
    (effEnd start endW : JSDate) (mb : Nat) (cur : JSDate)
    (buckets : List Int) (h : nextOccurrence cur freq = cur) (f1 f2 : Nat) :
    seriesLoop freq cents effEnd start endW mb (f1 + 1) cur buckets =
      seriesLoop freq cents effEnd start endW mb (f2 + 1) cur buckets := by
  simp only [seriesLoop, if_pos h]

theorem not_jle_of_jlt {a b : JSDate} (h : a < b) : ¬ b ≤ a := by
  rw [le_def]
  rw [lt_def] at h
  omega

theorem processYtdRow_skip_future (now : JSDate) (year : Int) (ys : JSDate)
    (st : YtdState) (r : IncomeRow) (h : now < r.date) :
    processYtdRow now year ys st r = st := by
  unfold processYtdRow
  by_cases hc : r.amountCents ≤ 0
  · rw [if_pos hc]
  · rw [if_neg hc]
    by_cases hf : r.frequency = .once
    · rw [if_pos hf, if_neg]
      intro hcon
      exact not_jle_of_jlt h hcon.2
    · rw [if_neg hf, if_pos h]

theorem ytdstate_eq (a b : YtdState) (h1 : a.once = b.once)
    (h2 : a.recurrentYtd = b.recurrentYtd)
    (h3 : a.runRateMonthly = b.runRateMonthly)
    (h4 : a.breakdown = b.breakdown) : a = b := by
  cases a
  cases b
  simp_all

theorem bumpN_fields (r : IncomeRow) (s : Scope) (u : String) (cents : Int) :
    ∀ (n : Nat) (m : List (String × YtdLine)),
      bumpN ({ r with scope := s, createdByUid := u }) cents n m =
        bumpN r cents n m := by
  intro n
  induction n with
  | zero => intro m; rfl
  | succ j ih =>
    intro m
    show bumpLine ({ r with scope := s, createdByUid := u }) cents
      (bumpN ({ r with scope := s, createdByUid := u }) cents j m) = _
    rw [ih]
    rfl

theorem ytdRecordCount_fields (now : JSDate) (year : Int) (ys : JSDate)
    (r : IncomeRow) (s : Scope) (u : String) :
    ytdRecordCount now year ys ({ r with scope := s, createdByUid := u }) =
      ytdRecordCount now year ys r := rfl

theorem ytdOnceDelta_fields (now : JSDate) (year : Int) (r : IncomeRow)
    (s : Scope) (u : String) :
    ytdOnceDelta now year ({ r with scope := s, createdByUid := u }) =
      ytdOnceDelta now year r := rfl

theorem ytdRunRateDelta_fields (now : JSDate) (r : IncomeRow)
    (s : Scope) (u : String) :
    ytdRunRateDelta now ({ r with scope := s, createdByUid := u }) =
      ytdRunRateDelta now r := rfl

theorem processYtdRow_fields (now : JSDate) (year : Int) (ys : JSDate)
    (st : YtdState) (r : IncomeRow) (s : Scope) (u : String) :
    processYtdRow now year ys st ({ r with scope := s, createdByUid := u }) =
      processYtdRow now year ys st r := by
  apply ytdstate_eq
  · rw [processYtdRow_once, processYtdRow_once, ytdOnceDelta_fields]
  · rw [processYtdRow_rec, processYtdRow_rec, ytdRecordCount_fields]
  · rw [processYtdRow_rr, processYtdRow_rr, ytdRunRateDelta_fields]
  · rw [processYtdRow_bd, processYtdRow_bd, ytdRecordCount_fields,
      bumpN_fields]

/-! #### Claim theorems -/

/-- C1 (counterexample): the YTD aggregation of the manage modal does not
restrict to records visible to a viewer.  A `personal` record created by
user `A` (monthly 100 cents from 2024-01-01, `now` = 2024-06-15) contributes
600 cents to `ytdCents` — the aggregation takes no viewer argument at all,
so a viewer `B ≠ A` sees the same 600, not the 0 the claim requires. -/
theorem c1_counterexample :
    (ytdAgg [⟨"a1", 100, "sal", .monthly, .personal,
        mkDate 2024 0 1 0 0 0 0, none, "A"⟩]
      (mkDate 2024 5 15 0 0 0 0) 2024).ytdCents = 600 ∧
    (600 : Int) ≠ 0 ∧ ("A" : String) ≠ "B" := by
  refine ⟨by decide, by decide, by decide⟩

/-- C1 (amended): the modal's YTD aggregation ignores both `scope` and
`createdByUid`: replacing either field of any record leaves every output
(`ytdCents`, `onceYtdCents`, `recurrentYtdCents`, `runRateMonthlyCents`,
`ytdLines`) unchanged, so a `personal` record contributes its occurrences
identically for every viewer, exactly like a `shared` one. -/
theorem c1_scope_ignored (pre post : List IncomeRow) (r : IncomeRow)
    (now : JSDate) (year : Int) (s : Scope) (u : String) :
    ytdAgg (pre ++ ({ r with scope := s, createdByUid := u }) :: post)
        now year =
      ytdAgg (pre ++ r :: post) now year := by
  have hf : (pre ++ ({ r with scope := s, createdByUid := u }) :: post).foldl
      (processYtdRow now year (mkDate year 0 1 0 0 0 0)) ⟨0, 0, 0, []⟩ =
      (pre ++ r :: post).foldl
        (processYtdRow now year (mkDate year 0 1 0 0 0 0)) ⟨0, 0, 0, []⟩ := by
    simp only [List.foldl_append, List.foldl_cons]
    rw [processYtdRow_fields]
  simp only [ytdAgg]
  rw [hf]

/-- C3: one `monthly` record of 10000 cents anchored 2023-01-01 with no end
date, fed to the series builder with `now` = 2024-06-30 (end of day, as the
dashboard passes `endOfMonth(new Date())`) and `monthsBack` = 12, yields
exactly 12 non-zero buckets each equal to 10000. -/
theorem c3_series_example :
    buildMonthlyIncomeSeries
        [⟨some 10000, some .monthly, none, none,
          .ts (mkDate 2023 0 1 0 0 0 0), .null⟩]
        (mkDate 2024 5 30 23 59 59 999) 12 =
      List.replicate 12 10000 ∧
    ((buildMonthlyIncomeSeries
        [⟨some 10000, some .monthly, none, none,
          .ts (mkDate 2023 0 1 0 0 0 0), .null⟩]
        (mkDate 2024 5 30 23 59 59 999) 12).filter
      (fun c => decide (c ≠ 0))).length = 12 := by
  refine ⟨by decide, by decide⟩

/-- C4 (counterexample): a `shared` `monthly` record dated 2024-07-30, 30
days after `now` = 2024-06-30, contributes its full 5000 cents to the
dashboard card's monthly estimated income
(`calcMonthlyEstimatedIncomeCentsShared` has no start-date check), so a
future-dated recurring record does not contribute 0 to every output. -/
theorem c4_counterexample :
    calcMonthlyEstimatedIncomeCentsShared
        [⟨some 5000, some .monthly, some .shared, none,
          .ts (mkDate 2024 6 30 0 0 0 0), .null⟩]
        (mkDate 2024 5 30 0 0 0 0) = 5000 ∧
    (5000 : Int) ≠ 0 ∧
    mkDate 2024 5 30 0 0 0 0 < mkDate 2024 6 30 0 0 0 0 := by
  refine ⟨by decide, by decide, by decide⟩

/-- C4 (amended): a record whose anchor date is strictly after `now`
contributes 0 to the modal's YTD totals, run rate and breakdown, and to
every bucket of the monthly series — but the dashboard card's
`calcMonthlyEstimatedIncomeCentsShared` performs no start-date check, so a
future-dated shared recurring record still adds its monthly-equivalent
amount there. -/
theorem c4_future_recurring :
    (∀ (pre post : List IncomeRow) (r : IncomeRow) (now : JSDate)
      (year : Int), now < r.date →
        ytdAgg (pre ++ r :: post) now year = ytdAgg (pre ++ post) now year) ∧
    (∀ (pre post : List IncomeRowLite) (r : IncomeRowLite) (now : JSDate)
      (mb : Nat) (d : JSDate), toDateSafe r.date = some d → now < d →
        buildMonthlyIncomeSeries (pre ++ r :: post) now mb =
          buildMonthlyIncomeSeries (pre ++ post) now mb) ∧
    (∀ (pre post : List IncomeRowLite) (r : IncomeRowLite) (now : JSDate),
      isShared r = true → 0 < r.amountCents.getD 0 →
      toDateSafe r.endDate = Option.none →
        calcMonthlyEstimatedIncomeCentsShared (pre ++ r :: post) now =
          calcMonthlyEstimatedIncomeCentsShared (pre ++ post) now +
            monthlyEstimatedSharedAdd 0 (r.amountCents.getD 0)
              r.frequency) := by
  refine ⟨?_, ?_, ?_⟩
  · intro pre post r now year h
    have hf : (pre ++ r :: post).foldl
        (processYtdRow now year (mkDate year 0 1 0 0 0 0)) ⟨0, 0, 0, []⟩ =
        (pre ++ post).foldl
          (processYtdRow now year (mkDate year 0 1 0 0 0 0))
          ⟨0, 0, 0, []⟩ :=
      foldl_skip _ r (fun st => processYtdRow_skip_future now year _ st r h)
        pre post _
    simp only [ytdAgg]
    rw [hf]
  · intro pre post r now mb d hd h
    simp only [buildMonthlyIncomeSeries]
    exact foldl_skip _ r
      (fun b => processSeriesRow_skip_future _ _ _ _ b r d hd h) pre post _
  · intro pre post r now hs hpos hend
    rw [calcMonthlyEstimatedShared_sum, calcMonthlyEstimatedShared_sum]
    simp only [List.map_append, List.map_cons, List.sum_append,
      List.sum_cons]
    have hdelta : monthlyEstimatedSharedDelta now r =
        monthlyEstimatedSharedAdd 0 (r.amountCents.getD 0) r.frequency := by
      unfold monthlyEstimatedSharedDelta
      rw [if_neg (by rw [hs]; simp)]
      rw [if_neg (by omega), hend]
      rfl
    rw [hdelta]
    ring

/-- C4 (witness): the amended statement instantiated at 30-days-in-the-
future records (`now` = 2024-06-30, anchor 2024-07-30). -/
theorem c4_witness :
    ((mkDate 2024 5 30 0 0 0 0 < (⟨"x", 5000, "s", .monthly, .shared,
        mkDate 2024 6 30 0 0 0 0, none, "A"⟩ : IncomeRow).date) ∧
      ytdAgg [⟨"x", 5000, "s", .monthly, .shared,
          mkDate 2024 6 30 0 0 0 0, none, "A"⟩]
        (mkDate 2024 5 30 0 0 0 0) 2024 =
        ytdAgg [] (mkDate 2024 5 30 0 0 0 0) 2024) ∧
    (buildMonthlyIncomeSeries
        [⟨some 5000, some .monthly, some .shared, none,
          .ts (mkDate 2024 6 30 0 0 0 0), .null⟩]
        (mkDate 2024 5 30 0 0 0 0) 12 =
      buildMonthlyIncomeSeries [] (mkDate 2024 5 30 0 0 0 0) 12) ∧
    (calcMonthlyEstimatedIncomeCentsShared
        [⟨some 5000, some .monthly, some .shared, none,
          .ts (mkDate 2024 6 30 0 0 0 0), .null⟩]
        (mkDate 2024 5 30 0 0 0 0) =
      calcMonthlyEstimatedIncomeCentsShared [] (mkDate 2024 5 30 0 0 0 0) +
        monthlyEstimatedSharedAdd 0 5000 (some .monthly)) := by
  refine ⟨⟨by decide, ?_⟩, ?_, ?_⟩
  · exact c4_future_recurring.1 [] [] _ _ 2024 (by decide)
  · exact c4_future_recurring.2.1 [] [] _ _ 12 (mkDate 2024 6 30 0 0 0 0)
      (by decide) (by decide)
  · exact c4_future_recurring.2.2 [] [] _ _ (by decide) (by decide)
      (by decide)

/-- C2 (counterexample): `firstOnOrAfter` does not return 2024-01-15 for a
monthly series anchored 2020-01-15 with target 2024-06-01 (it returns
2024-06-15, the first occurrence on or after the target), and for a
clamping anchor it disagrees with the naive linear scan: anchored
2020-01-31, the jump lands on 2024-06-30 while stepping occurrence by
occurrence (Jan 31 → Feb 29 → ... day clamps to 28 after February 2021)
reaches 2024-06-28. -/
theorem c2_counterexample :
    firstOnOrAfter (mkDate 2020 0 15 0 0 0 0) (mkDate 2024 5 1 0 0 0 0)
        .monthly = mkDate 2024 5 15 0 0 0 0 ∧
    mkDate 2024 5 15 0 0 0 0 ≠ mkDate 2024 0 15 0 0 0 0 ∧
    firstOnOrAfter (mkDate 2020 0 31 0 0 0 0) (mkDate 2024 5 1 0 0 0 0)
        .monthly = mkDate 2024 5 30 0 0 0 0 ∧
    specFirstOnOrAfter .monthly (mkDate 2024 5 1 0 0 0 0) 100
        (mkDate 2020 0 31 0 0 0 0) = mkDate 2024 5 28 0 0 0 0 ∧
    mkDate 2024 5 30 0 0 0 0 ≠ mkDate 2024 5 28 0 0 0 0 := by
  refine ⟨by decide, by decide, by decide, by decide, by decide⟩

/-- C2 (amended): for a recurring frequency and an anchor whose day of month
is at most 28 (so that month-end clamping never occurs along the series),
`firstOnOrAfter(start, target, freq)` returns exactly the earliest
occurrence ≥ `target` of the series obtained by iterating `nextOccurrence`
from `start`; in particular for a monthly record anchored 2020-01-15 with
target 2024-06-01 it returns 2024-06-15.  (For anchors on days 29-31 the
jump-ahead disagrees with the naive scan, see the counterexample.) -/
theorem c2_first_on_or_after_agrees :
    firstOnOrAfter (mkDate 2020 0 15 0 0 0 0) (mkDate 2024 5 1 0 0 0 0)
        .monthly = mkDate 2024 5 15 0 0 0 0 ∧
    ∀ (start target : JSDate) (freq : Frequency), freq ≠ .once →
      ValidDate start → ValidDate target → start.d ≤ 28 →
      ∃ k : Nat, firstOnOrAfter start target freq = iterOcc start freq k ∧
        target ≤ iterOcc start freq k ∧
        ∀ j : Nat, j < k → iterOcc start freq j < target :=
  ⟨by decide, fun start target freq hf hs ht hd =>
    firstOnOrAfter_agree start target hf hs ht hd⟩

/-- C2 (witness): the agreement statement instantiated at the monthly
anchor 2020-01-15 with target 2024-06-01. -/
theorem c2_witness :
    ((Frequency.monthly ≠ .once) ∧ ValidDate (mkDate 2020 0 15 0 0 0 0) ∧
      ValidDate (mkDate 2024 5 1 0 0 0 0) ∧
      (mkDate 2020 0 15 0 0 0 0).d ≤ 28) ∧
    ∃ k : Nat, firstOnOrAfter (mkDate 2020 0 15 0 0 0 0)
        (mkDate 2024 5 1 0 0 0 0) .monthly =
        iterOcc (mkDate 2020 0 15 0 0 0 0) .monthly k ∧
      mkDate 2024 5 1 0 0 0 0 ≤ iterOcc (mkDate 2020 0 15 0 0 0 0)
        .monthly k ∧
      ∀ j : Nat, j < k →
        iterOcc (mkDate 2020 0 15 0 0 0 0) .monthly j <
          mkDate 2024 5 1 0 0 0 0 :=
  ⟨⟨by decide, by decide, by decide, by decide⟩,
    c2_first_on_or_after_agrees.2 (mkDate 2020 0 15 0 0 0 0)
      (mkDate 2024 5 1 0 0 0 0) .monthly (by decide) (by decide) (by decide)
      (by decide)⟩

/-- C6 (counterexample): a monthly record of 1000 cents anchored 2024-01-01
with endDate 2024-04-15 and `now` = 2024-06-30: it contributes 0 to the run
rate and its four occurrences (Jan-Apr) all count toward
`recurrentYtdCents` = 4000, but the series only credits 3000 — the April
occurrence is dropped because its pay date (April 30, end of day) exceeds
`endOfDay(endDate)` = April 15 end of day, so not every occurrence dated on
or before the end date contributes to the series buckets. -/
theorem c6_counterexample :
    (ytdAgg [⟨"e", 1000, "s", .monthly, .shared, mkDate 2024 0 1 0 0 0 0,
        some (mkDate 2024 3 15 0 0 0 0), "A"⟩]
      (mkDate 2024 5 30 0 0 0 0) 2024).runRateMonthlyCents = 0 ∧
    (ytdAgg [⟨"e", 1000, "s", .monthly, .shared, mkDate 2024 0 1 0 0 0 0,
        some (mkDate 2024 3 15 0 0 0 0), "A"⟩]
      (mkDate 2024 5 30 0 0 0 0) 2024).recurrentYtdCents = 4 * 1000 ∧
    buildMonthlyIncomeSeries
        [⟨some 1000, some .monthly, none, none,
          .ts (mkDate 2024 0 1 0 0 0 0), .ts (mkDate 2024 3 15 0 0 0 0)⟩]
        (mkDate 2024 5 30 23 59 59 999) 12 =
      [0, 0, 0, 0, 0, 0, 1000, 1000, 1000, 0, 0, 0] ∧
    ([0, 0, 0, 0, 0, 0, 1000, 1000, 1000, 0, 0, 0] : List Int).sum =
      3 * 1000 ∧
    (3 * 1000 : Int) ≠ 4 * 1000 := by
  refine ⟨by decide, by decide, by decide, by decide, by decide⟩

/-- C6 (amended): a recurring record whose end date is in the past
contributes 0 to `runRateMonthlyCents` (for every record list and `now`),
and its occurrences up to and including the end date all still count toward
`recurrentYtdCents`; in the monthly series, however, an occurrence only
lands in a bucket when its pay date (the end of its own calendar month) is
≤ `endOfDay(endDate)`, so the end-month occurrence is kept exactly when the
end date is the last day of its month (concrete instances: endDate
2024-04-15 drops the April occurrence, endDate 2024-04-30 keeps it). -/
theorem c6_end_date_cutoff :
    (∀ (pre post : List IncomeRow) (r : IncomeRow) (now : JSDate)
      (year : Int) (e : JSDate), r.endDate = some e → e < now →
        (ytdAgg (pre ++ r :: post) now year).runRateMonthlyCents =
          (ytdAgg (pre ++ post) now year).runRateMonthlyCents) ∧
    (ytdAgg [⟨"e", 1000, "s", .monthly, .shared, mkDate 2024 0 1 0 0 0 0,
        some (mkDate 2024 3 15 0 0 0 0), "A"⟩]
      (mkDate 2024 5 30 0 0 0 0) 2024).recurrentYtdCents = 4 * 1000 ∧
    buildMonthlyIncomeSeries
        [⟨some 1000, some .monthly, none, none,
          .ts (mkDate 2024 0 1 0 0 0 0), .ts (mkDate 2024 3 15 0 0 0 0)⟩]
        (mkDate 2024 5 30 23 59 59 999) 12 =
      [0, 0, 0, 0, 0, 0, 1000, 1000, 1000, 0, 0, 0] ∧
    buildMonthlyIncomeSeries
        [⟨some 1000, some .monthly, none, none,
          .ts (mkDate 2024 0 1 0 0 0 0), .ts (mkDate 2024 3 30 0 0 0 0)⟩]
        (mkDate 2024 5 30 23 59 59 999) 12 =
      [0, 0, 0, 0, 0, 0, 1000, 1000, 1000, 1000, 0, 0] := by
  refine ⟨?_, by decide, by decide, by decide⟩
  intro pre post r now year e he hlt
  rw [ytdAgg_rr_eq, ytdAgg_rr_eq]
  simp only [List.map_append, List.map_cons, List.sum_append, List.sum_cons]
  have hdelta : ytdRunRateDelta now r = 0 := by
    unfold ytdRunRateDelta
    by_cases hc : r.amountCents ≤ 0
    · rw [if_pos hc]
    · rw [if_neg hc]
      by_cases hf : r.frequency = .once
      · rw [if_pos hf]
      · rw [if_neg hf]
        by_cases hn : now < r.date
        · rw [if_pos hn]
        · rw [if_neg hn]
          rw [if_neg ?hcond]
          case hcond =>
            rw [he]
            show ¬ (_ && decide (now ≤ e)) = true
            rw [decide_eq_false (not_jle_of_jlt hlt)]
            simp
  rw [hdelta]
  ring

/-- C6 (witness): the run-rate part instantiated at the concrete ended
record (endDate 2024-04-15 < now = 2024-06-30). -/
theorem c6_witness :
    ((⟨"e", 1000, "s", .monthly, .shared, mkDate 2024 0 1 0 0 0 0,
        some (mkDate 2024 3 15 0 0 0 0), "A"⟩ : IncomeRow).endDate =
      some (mkDate 2024 3 15 0 0 0 0) ∧
      mkDate 2024 3 15 0 0 0 0 < mkDate 2024 5 30 0 0 0 0) ∧
    (ytdAgg [⟨"e", 1000, "s", .monthly, .shared, mkDate 2024 0 1 0 0 0 0,
        some (mkDate 2024 3 15 0 0 0 0), "A"⟩]
      (mkDate 2024 5 30 0 0 0 0) 2024).runRateMonthlyCents =
      (ytdAgg [] (mkDate 2024 5 30 0 0 0 0) 2024).runRateMonthlyCents :=
  ⟨⟨by decide, by decide⟩,
    c6_end_date_cutoff.1 [] [] _ _ 2024 (mkDate 2024 3 15 0 0 0 0) rfl
      (by decide)⟩

/-- C7: a currently active recurring record adds its monthly-equivalent
amount to `runRateMonthlyCents`: the full amount for `monthly`,
`round(amount/3)` for `quarterly`, `round(amount/12)` for `yearly`
(round half up, e.g. `round(90/12) = 8`); three active records of 9000
cents each with the three frequencies yield 9000 + 3000 + 750 = 12750. -/
theorem c7_run_rate_formula :
    (∀ (pre post : List IncomeRow) (r : IncomeRow) (now : JSDate)
      (year : Int), 0 < r.amountCents → r.frequency ≠ .once →
      r.date ≤ now → (∀ e ∈ r.endDate, now ≤ e) →
        (ytdAgg (pre ++ r :: post) now year).runRateMonthlyCents =
          (match r.frequency with
            | .monthly => r.amountCents
            | .quarterly => roundDiv r.amountCents 3
            | .yearly => roundDiv r.amountCents 12
            | .once => 0) +
            (ytdAgg (pre ++ post) now year).runRateMonthlyCents) ∧
    (ytdAgg [⟨"m", 9000, "m", .monthly, .shared, mkDate 2024 0 1 0 0 0 0,
        none, "A"⟩,
      ⟨"q", 9000, "q", .quarterly, .shared, mkDate 2024 0 1 0 0 0 0,
        none, "A"⟩,
      ⟨"y", 9000, "y", .yearly, .shared, mkDate 2024 0 1 0 0 0 0,
        none, "A"⟩] (mkDate 2024 5 15 0 0 0 0) 2024).runRateMonthlyCents =
      9000 + 3000 + 750 ∧
    roundDiv 9000 3 = 3000 ∧ roundDiv 9000 12 = 750 ∧
    roundDiv 90 12 = 8 ∧ roundDiv 78 12 = 7 := by
  refine ⟨?_, by decide, by decide, by decide, by decide, by decide⟩
  intro pre post r now year hpos hf hdate hall
  rw [ytdAgg_rr_eq, ytdAgg_rr_eq]
  simp only [List.map_append, List.map_cons, List.sum_append, List.sum_cons]
  have hdelta : ytdRunRateDelta now r =
      (match r.frequency with
        | .monthly => r.amountCents
        | .quarterly => roundDiv r.amountCents 3
        | .yearly => roundDiv r.amountCents 12
        | .once => 0) := by
    unfold ytdRunRateDelta
    rw [if_neg (by omega), if_neg hf, if_neg (not_jlt_of_jle hdate),
      if_pos ?hcond]
    case hcond =>
      rw [Bool.and_eq_true]
      refine ⟨decide_eq_true hdate, ?_⟩
      cases hEnd : r.endDate with
      | none => rfl
      | some e =>
        show decide (now ≤ e) = true
        exact decide_eq_true (hall e (by rw [hEnd]; rfl))
  rw [hdelta]
  ring

/-- C7 (witness): the decomposition instantiated at an active quarterly
record of 9000 cents. -/
theorem c7_witness :
    ((0 : Int) < 9000 ∧ (Frequency.quarterly ≠ .once) ∧
      mkDate 2024 0 1 0 0 0 0 ≤ mkDate 2024 5 15 0 0 0 0 ∧
      (∀ e ∈ (none : Option JSDate), mkDate 2024 5 15 0 0 0 0 ≤ e)) ∧
    (ytdAgg [⟨"q", 9000, "q", .quarterly, .shared, mkDate 2024 0 1 0 0 0 0,
        none, "A"⟩] (mkDate 2024 5 15 0 0 0 0) 2024).runRateMonthlyCents =
      roundDiv 9000 3 +
        (ytdAgg [] (mkDate 2024 5 15 0 0 0 0) 2024).runRateMonthlyCents :=
  ⟨⟨by decide, by decide, by decide, fun e he => by cases he⟩,
    c7_run_rate_formula.1 [] [] _ _ 2024 (by decide) (by decide) (by decide)
      (fun e he => by cases he)⟩

/-- C10: the dashboard's one-off "this month" totals count every `once`
record whose date falls in `now`'s calendar year and month with no
comparison against `now` itself, so a one-off dated later in the current
month (strictly after `now`) is already included — in both the shared and
the personal variant. -/
theorem c10_one_off_future_included :
    (∀ (pre post : List IncomeRowLite) (r : IncomeRowLite) (now d : JSDate),
      r.frequency = some .once → isShared r = true →
      toDateSafe r.date = some d → getFullYear d = getFullYear now →
      getMonth d = getMonth now → now < d →
        calcOneOffThisMonthCentsShared (pre ++ r :: post) now =
          calcOneOffThisMonthCentsShared (pre ++ post) now +
            r.amountCents.getD 0) ∧
    (∀ (pre post : List IncomeRowLite) (r : IncomeRowLite) (now d : JSDate)
      (uid : String),
      r.frequency = some .once → isMyPersonal r uid = true →
      toDateSafe r.date = some d → getFullYear d = getFullYear now →
      getMonth d = getMonth now → now < d →
        calcOneOffThisMonthCentsMyPersonal (pre ++ r :: post) uid now =
          calcOneOffThisMonthCentsMyPersonal (pre ++ post) uid now +
            r.amountCents.getD 0) := by
  constructor
  · intro pre post r now d hfo hs hd hy hm _
    rw [calcOneOffShared_sum, calcOneOffShared_sum]
    simp only [List.map_append, List.map_cons, List.sum_append,
      List.sum_cons]
    have hdelta : oneOffSharedDelta now r = r.amountCents.getD 0 := by
      unfold oneOffSharedDelta
      rw [if_neg (by simp [hfo]), if_neg (by rw [hs]; simp), hd]
      dsimp only
      rw [if_pos ⟨hy, hm⟩]
    rw [hdelta]
    ring
  · intro pre post r now d uid hfo hs hd hy hm _
    rw [calcOneOffMyPersonal_sum, calcOneOffMyPersonal_sum]
    simp only [List.map_append, List.map_cons, List.sum_append,
      List.sum_cons]
    have hdelta : oneOffMyPersonalDelta uid now r = r.amountCents.getD 0 := by
      unfold oneOffMyPersonalDelta
      rw [if_neg (by simp [hfo]), if_neg (by rw [hs]; simp), hd]
      dsimp only
      rw [if_pos ⟨hy, hm⟩]
    rw [hdelta]
    ring

/-- C10 (witness): a shared and a personal one-off dated 2024-06-25,
strictly after `now` = 2024-06-10, are counted in full. -/
theorem c10_witness :
    ((⟨some 777, some .once, some .shared, none,
        .ts (mkDate 2024 5 25 0 0 0 0), .null⟩ : IncomeRowLite).frequency =
        some .once ∧
      mkDate 2024 5 10 0 0 0 0 < mkDate 2024 5 25 0 0 0 0) ∧
    calcOneOffThisMonthCentsShared
        [⟨some 777, some .once, some .shared, none,
          .ts (mkDate 2024 5 25 0 0 0 0), .null⟩]
        (mkDate 2024 5 10 0 0 0 0) =
      calcOneOffThisMonthCentsShared [] (mkDate 2024 5 10 0 0 0 0) + 777 ∧
    calcOneOffThisMonthCentsMyPersonal
        [⟨some 333, some .once, some .personal, some "U",
          .ts (mkDate 2024 5 25 0 0 0 0), .null⟩]
        "U" (mkDate 2024 5 10 0 0 0 0) =
      calcOneOffThisMonthCentsMyPersonal [] "U"
        (mkDate 2024 5 10 0 0 0 0) + 333 :=
  ⟨⟨rfl, by decide⟩,
    c10_one_off_future_included.1 [] [] _ _ (mkDate 2024 5 25 0 0 0 0) rfl
      (by decide) rfl (by decide) (by decide) (by decide),
    c10_one_off_future_included.2 [] [] _ _ (mkDate 2024 5 25 0 0 0 0) "U"
      rfl (by decide) rfl (by decide) (by decide) (by decide)⟩

/-- C5 (counterexample): two records sharing the id `"a"` (amounts 100 and
200, both monthly from 2024-06-01, `now` = 2024-06-15) merge into a single
breakdown line `⟨"a", "s1", monthly, 100, 2, 300⟩` whose `subtotalCents`
300 is not `amountCents × count = 100 × 2`, so the invariants do not hold
for every record list. -/
theorem c5_counterexample :
    (ytdAgg [⟨"a", 100, "s1", .monthly, .shared, mkDate 2024 5 1 0 0 0 0,
        none, "A"⟩,
      ⟨"a", 200, "s2", .monthly, .shared, mkDate 2024 5 1 0 0 0 0,
        none, "A"⟩] (mkDate 2024 5 15 0 0 0 0) 2024).ytdLines =
      [⟨"a", "s1", .monthly, 100, 2, 300⟩] ∧
    (300 : Int) ≠ 100 * 2 := by
  refine ⟨?_, by decide⟩
  show ((([⟨"a", 100, "s1", .monthly, .shared, mkDate 2024 5 1 0 0 0 0,
        none, "A"⟩,
      ⟨"a", 200, "s2", .monthly, .shared, mkDate 2024 5 1 0 0 0 0,
        none, "A"⟩] : List IncomeRow).foldl
      (processYtdRow (mkDate 2024 5 15 0 0 0 0) 2024
        (mkDate 2024 0 1 0 0 0 0)) ⟨0, 0, 0, []⟩).breakdown.map
      Prod.snd).mergeSort subtotalGe =
    [⟨"a", "s1", .monthly, 100, 2, 300⟩]
  rw [show ((([⟨"a", 100, "s1", .monthly, .shared, mkDate 2024 5 1 0 0 0 0,
        none, "A"⟩,
      ⟨"a", 200, "s2", .monthly, .shared, mkDate 2024 5 1 0 0 0 0,
        none, "A"⟩] : List IncomeRow).foldl
      (processYtdRow (mkDate 2024 5 15 0 0 0 0) 2024
        (mkDate 2024 0 1 0 0 0 0)) ⟨0, 0, 0, []⟩).breakdown.map
      Prod.snd) = [⟨"a", "s1", .monthly, 100, 2, 300⟩] from by decide]
  exact List.mergeSort_singleton _

/-- C5 (amended): provided the record ids are pairwise distinct (as
Firestore document ids are), the `ytdLines` breakdown satisfies: every
line has `subtotalCents = amountCents × count` with `count ≥ 1`; every line
is the line of some record with at least one in-year occurrence, and every
recurring record with at least one in-year occurrence has its line present;
the lines are sorted descending by `subtotalCents`; and the lines'
subtotals sum to `recurrentYtdCents` (same occurrence walk). -/
theorem c5_ytdLines_invariants (rows : List IncomeRow) (now : JSDate)
    (year : Int) (hnd : (rows.map IncomeRow.id).Nodup) :
    (∀ l ∈ (ytdAgg rows now year).ytdLines,
      l.subtotalCents = l.amountCents * l.count ∧ 1 ≤ l.count) ∧
    (∀ l ∈ (ytdAgg rows now year).ytdLines, ∃ r ∈ rows,
      l = lineAt r r.amountCents
        (ytdRecordCount now year (mkDate year 0 1 0 0 0 0) r) ∧
      1 ≤ ytdRecordCount now year (mkDate year 0 1 0 0 0 0) r) ∧
    (∀ r ∈ rows,
      1 ≤ ytdRecordCount now year (mkDate year 0 1 0 0 0 0) r →
      lineAt r r.amountCents
          (ytdRecordCount now year (mkDate year 0 1 0 0 0 0) r) ∈
        (ytdAgg rows now year).ytdLines) ∧
    (ytdAgg rows now year).ytdLines.Pairwise
      (fun a b => b.subtotalCents ≤ a.subtotalCents) ∧
    ((ytdAgg rows now year).ytdLines.map YtdLine.subtotalCents).sum =
      (ytdAgg rows now year).recurrentYtdCents := by
  have hlines := ytdAgg_lines_eq rows now year hnd
  have hperm : ((ytdAgg rows now year).ytdLines).Perm
      ((rows.filterMap (lineFor now year
        (mkDate year 0 1 0 0 0 0))).map Prod.snd) := by
    rw [hlines]
    exact List.mergeSort_perm _ subtotalGe
  have hinv : ∀ (r : IncomeRow) (p : String × YtdLine),
      lineFor now year (mkDate year 0 1 0 0 0 0) r = some p →
      p = (r.id, lineAt r r.amountCents
        (ytdRecordCount now year (mkDate year 0 1 0 0 0 0) r)) ∧
      1 ≤ ytdRecordCount now year (mkDate year 0 1 0 0 0 0) r := by
    intro r p hp
    unfold lineFor at hp
    by_cases h0 : ytdRecordCount now year (mkDate year 0 1 0 0 0 0) r = 0
    · rw [if_pos h0] at hp
      cases hp
    · rw [if_neg h0] at hp
      exact ⟨(Option.some.inj hp).symm, by omega⟩
  have hmem2 : ∀ l ∈ (ytdAgg rows now year).ytdLines, ∃ r ∈ rows,
      l = lineAt r r.amountCents
        (ytdRecordCount now year (mkDate year 0 1 0 0 0 0) r) ∧
      1 ≤ ytdRecordCount now year (mkDate year 0 1 0 0 0 0) r := by
    intro l hl
    have hl2 := hperm.mem_iff.mp hl
    obtain ⟨p, hpmem, hpeq⟩ := List.mem_map.mp hl2
    obtain ⟨r, hr, hfor⟩ := List.mem_filterMap.mp hpmem
    obtain ⟨hpval, hn⟩ := hinv r p hfor
    subst hpval
    exact ⟨r, hr, hpeq.symm, hn⟩
  refine ⟨?_, hmem2, ?_, ?_, ?_⟩
  · intro l hl
    obtain ⟨r, _, hleq, hn⟩ := hmem2 l hl
    subst hleq
    exact ⟨rfl, hn⟩
  · intro r hr hn1
    have hfor : lineFor now year (mkDate year 0 1 0 0 0 0) r =
        some (r.id, lineAt r r.amountCents
          (ytdRecordCount now year (mkDate year 0 1 0 0 0 0) r)) := by
      unfold lineFor
      rw [if_neg (by omega)]
    have hmemf : (r.id, lineAt r r.amountCents
        (ytdRecordCount now year (mkDate year 0 1 0 0 0 0) r)) ∈
        rows.filterMap (lineFor now year (mkDate year 0 1 0 0 0 0)) :=
      List.mem_filterMap.mpr ⟨r, hr, hfor⟩
    exact hperm.mem_iff.mpr (List.mem_map_of_mem Prod.snd hmemf)
  · rw [hlines]
    exact (List.sorted_mergeSort subtotalGe_trans subtotalGe_total _).imp
      (fun h => of_decide_eq_true h)
  · have hsum := (hperm.map YtdLine.subtotalCents).sum_eq
    rw [hsum, lineFor_sum now year (mkDate year 0 1 0 0 0 0) rows,
      ytdAgg_rec_eq]

/-- C5 (witness): the invariants instantiated at two distinct-id active
records (monthly 9000 and quarterly 9000, `now` = 2024-06-15). -/
theorem c5_witness :
    (([⟨"m", 9000, "m", .monthly, .shared, mkDate 2024 0 1 0 0 0 0,
        none, "A"⟩,
      ⟨"q", 9000, "q", .quarterly, .shared, mkDate 2024 0 1 0 0 0 0,
        none, "A"⟩] : List IncomeRow).map IncomeRow.id).Nodup ∧
    ((∀ l ∈ (ytdAgg [⟨"m", 9000, "m", .monthly, .shared,
        mkDate 2024 0 1 0 0 0 0, none, "A"⟩,
      ⟨"q", 9000, "q", .quarterly, .shared, mkDate 2024 0 1 0 0 0 0,
        none, "A"⟩] (mkDate 2024 5 15 0 0 0 0) 2024).ytdLines,
      l.subtotalCents = l.amountCents * l.count ∧ 1 ≤ l.count) ∧
    (∀ l ∈ (ytdAgg [⟨"m", 9000, "m", .monthly, .shared,
        mkDate 2024 0 1 0 0 0 0, none, "A"⟩,
      ⟨"q", 9000, "q", .quarterly, .shared, mkDate 2024 0 1 0 0 0 0,
        none, "A"⟩] (mkDate 2024 5 15 0 0 0 0) 2024).ytdLines,
      ∃ r ∈ ([⟨"m", 9000, "m", .monthly, .shared,
          mkDate 2024 0 1 0 0 0 0, none, "A"⟩,
        ⟨"q", 9000, "q", .quarterly, .shared, mkDate 2024 0 1 0 0 0 0,
          none, "A"⟩] : List IncomeRow),
        l = lineAt r r.amountCents (ytdRecordCount
          (mkDate 2024 5 15 0 0 0 0) 2024 (mkDate 2024 0 1 0 0 0 0) r) ∧
        1 ≤ ytdRecordCount (mkDate 2024 5 15 0 0 0 0) 2024
          (mkDate 2024 0 1 0 0 0 0) r) ∧
    (∀ r ∈ ([⟨"m", 9000, "m", .monthly, .shared,
        mkDate 2024 0 1 0 0 0 0, none, "A"⟩,
      ⟨"q", 9000, "q", .quarterly, .shared, mkDate 2024 0 1 0 0 0 0,
        none, "A"⟩] : List IncomeRow),
      1 ≤ ytdRecordCount (mkDate 2024 5 15 0 0 0 0) 2024
        (mkDate 2024 0 1 0 0 0 0) r →
      lineAt r r.amountCents (ytdRecordCount (mkDate 2024 5 15 0 0 0 0)
          2024 (mkDate 2024 0 1 0 0 0 0) r) ∈
        (ytdAgg [⟨"m", 9000, "m", .monthly, .shared,
            mkDate 2024 0 1 0 0 0 0, none, "A"⟩,
          ⟨"q", 9000, "q", .quarterly, .shared, mkDate 2024 0 1 0 0 0 0,
            none, "A"⟩] (mkDate 2024 5 15 0 0 0 0) 2024).ytdLines) ∧
    (ytdAgg [⟨"m", 9000, "m", .monthly, .shared,
        mkDate 2024 0 1 0 0 0 0, none, "A"⟩,
      ⟨"q", 9000, "q", .quarterly, .shared, mkDate 2024 0 1 0 0 0 0,
        none, "A"⟩] (mkDate 2024 5 15 0 0 0 0) 2024).ytdLines.Pairwise
      (fun a b => b.subtotalCents ≤ a.subtotalCents) ∧
    ((ytdAgg [⟨"m", 9000, "m", .monthly, .shared,
        mkDate 2024 0 1 0 0 0 0, none, "A"⟩,
      ⟨"q", 9000, "q", .quarterly, .shared, mkDate 2024 0 1 0 0 0 0,
        none, "A"⟩] (mkDate 2024 5 15 0 0 0 0) 2024).ytdLines.map
      YtdLine.subtotalCents).sum =
      (ytdAgg [⟨"m", 9000, "m", .monthly, .shared,
          mkDate 2024 0 1 0 0 0 0, none, "A"⟩,
        ⟨"q", 9000, "q", .quarterly, .shared, mkDate 2024 0 1 0 0 0 0,
          none, "A"⟩]
        (mkDate 2024 5 15 0 0 0 0) 2024).recurrentYtdCents) :=
  ⟨by decide, c5_ytdLines_invariants _ (mkDate 2024 5 15 0 0 0 0) 2024
    (by decide)⟩

/-- C8: the occurrence-stepping loops always return: the iteration count of
a loop given `fuel` initial guard budget never exceeds that budget (500 for
the YTD walk, 600 for the series walk), a loop whose current occurrence
already exceeds the effective end returns its state unchanged, and a
`nextOccurrence` step that returns the same date (e.g. frequency `once`)
makes the loop break immediately — the result does not depend on any
remaining fuel. -/
theorem c8_loop_bounds :
    (∀ (freq : Frequency) (effEnd cur : JSDate),
      loopIters freq effEnd 500 cur ≤ 500 ∧
        loopIters freq effEnd 600 cur ≤ 600) ∧
    (∀ (year : Int) (r : IncomeRow) (cents : Int) (effEnd : JSDate)
      (fuel : Nat) (cur : JSDate) (st : YtdState), ¬ cur ≤ effEnd →
        ytdLoop year r cents effEnd fuel cur st = st) ∧
    (∀ (freq : Frequency) (cents : Int) (effEnd start endW : JSDate)
      (mb fuel : Nat) (cur : JSDate) (buckets : List Int), ¬ cur ≤ effEnd →
        seriesLoop freq cents effEnd start endW mb fuel cur buckets =
          buckets) ∧
    (∀ (freq : Frequency) (effEnd cur : JSDate) (fuel : Nat),
      nextOccurrence cur freq = cur →
        loopIters freq effEnd fuel cur ≤ 1) ∧
    (∀ (year : Int) (r : IncomeRow) (cents : Int) (effEnd cur : JSDate)
      (st : YtdState) (f1 f2 : Nat), nextOccurrence cur r.frequency = cur →
        ytdLoop year r cents effEnd (f1 + 1) cur st =
          ytdLoop year r cents effEnd (f2 + 1) cur st) ∧
    (∀ (freq : Frequency) (cents : Int) (effEnd start endW : JSDate)
      (mb : Nat) (cur : JSDate) (buckets : List Int) (f1 f2 : Nat),
      nextOccurrence cur freq = cur →
        seriesLoop freq cents effEnd start endW mb (f1 + 1) cur buckets =
          seriesLoop freq cents effEnd start endW mb (f2 + 1) cur
            buckets) := by
  refine ⟨?_, ?_, ?_, ?_, ?_, ?_⟩
  · intro freq effEnd cur
    exact ⟨loopIters_le freq effEnd 500 cur, loopIters_le freq effEnd 600 cur⟩
  · intro year r cents effEnd fuel cur st h
    exact ytdLoop_past_end year r cents effEnd fuel cur st h
  · intro freq cents effEnd start endW mb fuel cur buckets h
    exact seriesLoop_past_end freq cents effEnd start endW mb fuel cur
      buckets h
  · intro freq effEnd cur fuel h
    exact loopIters_degenerate freq effEnd cur h fuel
  · intro year r cents effEnd cur st f1 f2 h
    exact ytdLoop_degenerate year r cents effEnd cur st h f1 f2
  · intro freq cents effEnd start endW mb cur buckets f1 f2 h
    exact seriesLoop_degenerate freq cents effEnd start endW mb cur
      buckets h f1 f2

/-- C8 (witness): the bound and break facts instantiated at frequency
`once` (whose `nextOccurrence` is the identity) and concrete dates. -/
theorem c8_witness :
    ((¬ mkDate 2024 6 1 0 0 0 0 ≤ mkDate 2024 0 1 0 0 0 0) ∧
      nextOccurrence (mkDate 2024 0 1 0 0 0 0) .once =
        mkDate 2024 0 1 0 0 0 0) ∧
    (loopIters .once (mkDate 2024 0 1 0 0 0 0) 500
        (mkDate 2024 6 1 0 0 0 0) ≤ 500 ∧
      loopIters .once (mkDate 2024 0 1 0 0 0 0) 600
        (mkDate 2024 6 1 0 0 0 0) ≤ 600) ∧
    ytdLoop 2024 ⟨"x", 100, "s", .once, .shared, mkDate 2024 0 1 0 0 0 0,
        none, "A"⟩ 100 (mkDate 2024 0 1 0 0 0 0) 500
      (mkDate 2024 6 1 0 0 0 0) ⟨0, 0, 0, []⟩ = ⟨0, 0, 0, []⟩ ∧
    seriesLoop .once 100 (mkDate 2024 0 1 0 0 0 0) (mkDate 2023 6 1 0 0 0 0)
      (mkDate 2024 5 1 0 0 0 0) 12 600 (mkDate 2024 6 1 0 0 0 0)
      (List.replicate 12 0) = List.replicate 12 0 ∧
    loopIters .once (mkDate 2024 6 1 0 0 0 0) 500
      (mkDate 2024 0 1 0 0 0 0) ≤ 1 ∧
    ytdLoop 2024 ⟨"x", 100, "s", .once, .shared, mkDate 2024 0 1 0 0 0 0,
        none, "A"⟩ 100 (mkDate 2024 6 1 0 0 0 0) (499 + 1)
      (mkDate 2024 0 1 0 0 0 0) ⟨0, 0, 0, []⟩ =
      ytdLoop 2024 ⟨"x", 100, "s", .once, .shared, mkDate 2024 0 1 0 0 0 0,
        none, "A"⟩ 100 (mkDate 2024 6 1 0 0 0 0) (0 + 1)
      (mkDate 2024 0 1 0 0 0 0) ⟨0, 0, 0, []⟩ ∧
    seriesLoop .once 100 (mkDate 2024 6 1 0 0 0 0) (mkDate 2023 6 1 0 0 0 0)
      (mkDate 2024 5 1 0 0 0 0) 12 (599 + 1) (mkDate 2024 0 1 0 0 0 0)
      (List.replicate 12 0) =
      seriesLoop .once 100 (mkDate 2024 6 1 0 0 0 0)
        (mkDate 2023 6 1 0 0 0 0) (mkDate 2024 5 1 0 0 0 0) 12 (0 + 1)
        (mkDate 2024 0 1 0 0 0 0) (List.replicate 12 0) :=
  ⟨⟨by decide, rfl⟩,
    c8_loop_bounds.1 .once (mkDate 2024 0 1 0 0 0 0)
      (mkDate 2024 6 1 0 0 0 0),
    c8_loop_bounds.2.1 2024 _ 100 (mkDate 2024 0 1 0 0 0 0) 500
      (mkDate 2024 6 1 0 0 0 0) ⟨0, 0, 0, []⟩ (by decide),
    c8_loop_bounds.2.2.1 .once 100 (mkDate 2024 0 1 0 0 0 0)
      (mkDate 2023 6 1 0 0 0 0) (mkDate 2024 5 1 0 0 0 0) 12 600
      (mkDate 2024 6 1 0 0 0 0) (List.replicate 12 0) (by decide),
    c8_loop_bounds.2.2.2.1 .once (mkDate 2024 6 1 0 0 0 0)
      (mkDate 2024 0 1 0 0 0 0) 500 rfl,
    c8_loop_bounds.2.2.2.2.1 2024 _ 100 (mkDate 2024 6 1 0 0 0 0)
      (mkDate 2024 0 1 0 0 0 0) ⟨0, 0, 0, []⟩ 499 0 rfl,
    c8_loop_bounds.2.2.2.2.2 .once 100 (mkDate 2024 6 1 0 0 0 0)
      (mkDate 2023 6 1 0 0 0 0) (mkDate 2024 5 1 0 0 0 0) 12
      (mkDate 2024 0 1 0 0 0 0) (List.replicate 12 0) 599 0 rfl⟩

/-- C9: the monthly series builder degrades gracefully: a record whose
anchor date is missing or unparseable contributes nothing to any bucket, a
record with a missing frequency contributes nothing, and a record with
missing or non-positive `amountCents` contributes nothing, while the other
records of the list are processed exactly as if the malformed record were
absent (and the builder, being a total function, never throws). -/
theorem c9_malformed_skipped :
    (∀ (pre post : List IncomeRowLite) (r : IncomeRowLite) (now : JSDate)
      (mb : Nat), toDateSafe r.date = none →
        buildMonthlyIncomeSeries (pre ++ r :: post) now mb =
          buildMonthlyIncomeSeries (pre ++ post) now mb) ∧
    (∀ (pre post : List IncomeRowLite) (r : IncomeRowLite) (now : JSDate)
      (mb : Nat), r.amountCents.getD 0 ≤ 0 →
        buildMonthlyIncomeSeries (pre ++ r :: post) now mb =
          buildMonthlyIncomeSeries (pre ++ post) now mb) ∧
    (∀ (pre post : List IncomeRowLite) (r : IncomeRowLite) (now : JSDate)
      (mb : Nat), r.frequency = none →
        buildMonthlyIncomeSeries (pre ++ r :: post) now mb =
          buildMonthlyIncomeSeries (pre ++ post) now mb) := by
  refine ⟨?_, ?_, ?_⟩
  · intro pre post r now mb h
    simp only [buildMonthlyIncomeSeries]
    exact foldl_skip _ r
      (fun b => processSeriesRow_skip_date _ _ _ _ b r h) pre post _
  · intro pre post r now mb h
    simp only [buildMonthlyIncomeSeries]
    exact foldl_skip _ r
      (fun b => processSeriesRow_skip_amount _ _ _ _ b r h) pre post _
  · intro pre post r now mb h
    simp only [buildMonthlyIncomeSeries]
    exact foldl_skip _ r
      (fun b => processSeriesRow_skip_freq _ _ _ _ b r h) pre post _

/-- C9 (witness): an unparseable-date record, a zero-amount record and a
missing-frequency record each leave the series of one well-formed record
unchanged. -/
theorem c9_witness :
    (toDateSafe (⟨some 5000, some .monthly, none, none, .unparseable,
        .null⟩ : IncomeRowLite).date = none ∧
      ((⟨none, some .monthly, none, none, .ts (mkDate 2024 0 1 0 0 0 0),
        .null⟩ : IncomeRowLite)).amountCents.getD 0 ≤ 0 ∧
      ((⟨some 5000, none, none, none, .ts (mkDate 2024 0 1 0 0 0 0),
        .null⟩ : IncomeRowLite)).frequency = none) ∧
    buildMonthlyIncomeSeries
        ([⟨some 10000, some .monthly, none, none,
          .ts (mkDate 2023 0 1 0 0 0 0), .null⟩] ++
          (⟨some 5000, some .monthly, none, none, .unparseable, .null⟩ :
            IncomeRowLite) :: [])
        (mkDate 2024 5 30 23 59 59 999) 12 =
      buildMonthlyIncomeSeries
        ([⟨some 10000, some .monthly, none, none,
          .ts (mkDate 2023 0 1 0 0 0 0), .null⟩] ++ [])
        (mkDate 2024 5 30 23 59 59 999) 12 ∧
    buildMonthlyIncomeSeries
        ([] ++ (⟨none, some .monthly, none, none,
          .ts (mkDate 2024 0 1 0 0 0 0), .null⟩ : IncomeRowLite) :: [])
        (mkDate 2024 5 30 23 59 59 999) 12 =
      buildMonthlyIncomeSeries ([] ++ [])
        (mkDate 2024 5 30 23 59 59 999) 12 ∧
    buildMonthlyIncomeSeries
        ([] ++ (⟨some 5000, none, none, none,
          .ts (mkDate 2024 0 1 0 0 0 0), .null⟩ : IncomeRowLite) :: [])
        (mkDate 2024 5 30 23 59 59 999) 12 =
      buildMonthlyIncomeSeries ([] ++ [])
        (mkDate 2024 5 30 23 59 59 999) 12 :=
  ⟨⟨rfl, by decide, rfl⟩,
    c9_malformed_skipped.1 [⟨some 10000, some .monthly, none, none,
      .ts (mkDate 2023 0 1 0 0 0 0), .null⟩] [] _ _ 12 rfl,
    c9_malformed_skipped.2.1 [] [] _ _ 12 (by decide),
    c9_malformed_skipped.2.2 [] [] _ _ 12 rfl⟩

end Cashflowr
